import Mathlib

/-!
# Packet-capture controller: reconciler and capture-session manager

A shallow embedding of `pkg/controller/controller.go`,
`pkg/capture/manager.go` and `pkg/utils/errors.go`.  Go strings are Lean `String`s (algorithms that walk
a string work on its list of characters), Go maps are association lists read
with `List.lookup`, a Go `error` result is an `Option` (`none` for nil), and
every function that mutates the manager, the work queue or the file system is
a function from the state before to the state after.

The library functions the code calls (`strings.Split`, `strings.Contains`,
`strconv.Atoi`, `path/filepath`, client-go's key functions) come first, each
written after its Go source; then the data model, the controller, the process
resolver, the session manager and the error taxonomy; then the theorems.
-/

namespace PacketCapture

/-! ## Go library: `strings` -/

/-- Worker of `stringsSplit`: walks the text once.  `skip` counts the characters
of a separator occurrence that are still to be stepped over, `cur` holds the
current piece in reverse. -/
def splitAux (sep : List Char) : List Char → Nat → List Char → List (List Char)
  | [], _, cur => [cur.reverse]
  | _ :: rest, skip + 1, cur => splitAux sep rest skip cur
  | c :: rest, 0, cur =>
    if sep.isPrefixOf (c :: rest) then
      cur.reverse :: splitAux sep rest (sep.length - 1) []
    else
      splitAux sep rest 0 (c :: cur)

/-- Go `strings.Split(s, sep)`: the pieces of `s` between the non-overlapping
occurrences of `sep`, found left to right; with an empty `sep` the string is
cut after every character. -/
def stringsSplit (s sep : String) : List String :=
  if sep.data = [] then s.data.map (fun c => String.mk [c])
  else (splitAux sep.data s.data 0 []).map String.mk

/-- Go `strings.Contains(s, substr)`: `substr` starts at some position of `s`. -/
def stringsContains (s substr : String) : Bool :=
  s.data.tails.any (fun t => substr.data.isPrefixOf t)

/-! ## Go library: `strconv` -/

/-- The value of a run of decimal digits. -/
def digitsValue (ds : List Char) : Nat :=
  ds.foldl (fun n c => n * 10 + (c.toNat - 48)) 0

/-- Go `strconv.Atoi` with a 64-bit `int`: an optional sign, then one or more
decimal digits, and a value between `-2^63` and `2^63 - 1`; `none` stands for
the returned error. -/
def Atoi (s : String) : Option Int :=
  match s.data with
  | [] => none
  | c :: rest =>
    let ds := if c = '-' ∨ c = '+' then rest else c :: rest
    if ds = [] then none
    else if ds.all Char.isDigit then
      let n := digitsValue ds
      if c = '-' then (if n ≤ 2 ^ 63 then some (-(n : Int)) else none)
      else (if n < 2 ^ 63 then some (n : Int) else none)
    else none

/-! ## Go library: `path/filepath` (Unix) -/

/-- One path element met by `filepath.Clean`, with the elements kept so far in
`stack` (last one first): empty and `.` elements are dropped, `..` removes the
element before it, or is kept when there is none and the path is not rooted. -/
def cleanStep (rooted : Bool) (stack : List (List Char)) (e : List Char) : List (List Char) :=
  if e = [] ∨ e = ['.'] then stack
  else if e = ['.', '.'] then
    match stack with
    | top :: below => if top = ['.', '.'] then e :: stack else below
    | [] => if rooted then [] else [e]
  else e :: stack

/-- Go `filepath.Clean`: the shortest equivalent path. -/
def filepathClean (path : String) : String :=
  if path.data = [] then "."
  else
    let rooted := path.data.head? = some '/'
    let elems := ((path.data.splitOn '/').foldl (cleanStep rooted) []).reverse
    let body := String.mk (List.intercalate ['/'] elems)
    if rooted then "/" ++ body else if body.data = [] then "." else body

/-- Go `filepath.Join`: the elements from the first non-empty one on, joined
with `/` and cleaned; the empty string when all are empty. -/
def filepathJoin (elem : List String) : String :=
  match elem.dropWhile (fun e => e.data = []) with
  | [] => ""
  | e :: es => filepathClean (String.intercalate "/" (e :: es))

/-- Go `filepath.Split`: the path cut right after its last `/`. -/
def filepathSplit (path : String) : String × String :=
  (String.mk (path.data.reverse.dropWhile (fun c => c ≠ '/')).reverse,
   String.mk (path.data.reverse.takeWhile (fun c => c ≠ '/')).reverse)

/-- The characters `filepath` treats as pattern syntax (`hasMeta`'s set). -/
def isGlobMeta (c : Char) : Bool :=
  c = '*' || c = '?' || c = '[' || c = '\\'

/-- Go `filepath.hasMeta`. -/
def hasMeta (path : String) : Bool := path.data.any isGlobMeta

/-- Go `filepath.scanChunk` after the leading stars are gone: the length of
the chunk, which ends before the first `*` outside a bracket expression. -/
def chunkLength : List Char → Bool → Nat
  | [], _ => 0
  | c :: rest, inrange =>
    if c = '\\' then
      match rest with
      | [] => 1
      | _ :: rest2 => 2 + chunkLength rest2 inrange
    else if c = '[' then 1 + chunkLength rest true
    else if c = ']' then 1 + chunkLength rest false
    else if c = '*' then (if inrange then 1 + chunkLength rest inrange else 0)
    else 1 + chunkLength rest inrange

/-- Go `filepath.scanChunk`: whether the pattern starts with stars, the chunk
after them, and the rest of the pattern. -/
def scanChunk (pattern : List Char) : Bool × List Char × List Char :=
  let star := pattern.head? = some '*'
  let p := pattern.dropWhile (fun c => c = '*')
  let i := chunkLength p false
  (star, p.take i, p.drop i)

/-- Go `filepath.getEsc`: one possibly escaped character of a bracket
expression and what follows it; `none` is `ErrBadPattern`. -/
def getEsc : List Char → Option (Char × List Char)
  | [] => none
  | c :: rest =>
    if c = '-' ∨ c = ']' then none
    else
      match (if c = '\\' then rest else c :: rest) with
      | [] => none
      | r :: nchunk => if nchunk = [] then none else some (r, nchunk)

/-- The range loop of a bracket expression in `filepath.matchChunk`: returns
the chunk after the closing `]` and whether `r` fell in one of the ranges;
`none` is `ErrBadPattern`. -/
def matchClass : Nat → List Char → Char → Bool → Nat → Option (List Char × Bool)
  | 0, _, _, _, _ => none
  | fuel + 1, chunk, r, matched, nrange =>
    if chunk.head? = some ']' ∧ nrange > 0 then some (chunk.tail, matched)
    else
      match getEsc chunk with
      | none => none
      | some (lo, chunk1) =>
        let next : Option (Char × List Char) :=
          if chunk1.head? = some '-' then getEsc chunk1.tail else some (lo, chunk1)
        match next with
        | none => none
        | some (hi, chunk2) =>
          matchClass fuel chunk2 r (matched || (decide (lo ≤ r) && decide (r ≤ hi))) (nrange + 1)

/-- The outcome of `filepath.matchChunk`: a malformed pattern, no match, or a
match together with the unread rest of the name. -/
inductive ChunkResult where
  | badPattern
  | noMatch
  | matched (rest : List Char)
deriving DecidableEq, Repr

/-- Go `filepath.matchChunk`: `s` is the unread name, `failed` records that the
match has already failed (the chunk is then only checked for being
well-formed). -/
def matchChunkAux : Nat → List Char → List Char → Bool → ChunkResult
  | 0, _, _, _ => .badPattern
  | fuel + 1, chunk, s, failed =>
    match chunk with
    | [] => if failed then .noMatch else .matched s
    | c :: chunk1 =>
      let failed := failed || s.isEmpty
      if c = '[' then
        let r : Char := if failed then Char.ofNat 0 else s.headD (Char.ofNat 0)
        let s1 := if failed then s else s.tail
        let negated := chunk1.head? = some '^'
        let chunk2 := if negated then chunk1.tail else chunk1
        match matchClass (chunk2.length + 1) chunk2 r false 0 with
        | none => .badPattern
        | some (chunk3, m) =>
          matchChunkAux fuel chunk3 s1 (failed || (m == decide negated))
      else if c = '?' then
        matchChunkAux fuel chunk1 (if failed then s else s.tail)
          (failed || s.head? = some '/')
      else
        let lit : Option (Char × List Char) :=
          if c = '\\' then
            match chunk1 with
            | [] => none
            | e :: chunk2 => some (e, chunk2)
          else some (c, chunk1)
        match lit with
        | none => .badPattern
        | some (l, chunk2) =>
          matchChunkAux fuel chunk2 (if failed then s else s.tail)
            (failed || s.head? ≠ some l)

/-- Go `filepath.matchChunk`. -/
def matchChunk (chunk s : List Char) : ChunkResult :=
  matchChunkAux (chunk.length + 1) chunk s false

/-- The loop of `filepath.Match` that retries a chunk after a star at every
later position of the name, up to the first `/`.  `last` says that no pattern
is left after the chunk. -/
def matchAfterStar (chunk : List Char) (last : Bool) : List Char → ChunkResult
  | [] => .noMatch
  | c :: rest =>
    if c = '/' then .noMatch
    else
      match matchChunk chunk rest with
      | .matched t => if last ∧ t ≠ [] then matchAfterStar chunk last rest else .matched t
      | .badPattern => .badPattern
      | .noMatch => matchAfterStar chunk last rest

/-- The closing loop of `filepath.Match`: the rest of the pattern is checked
for being well-formed before "no match" is reported. -/
def checkPattern : Nat → List Char → Option Bool
  | 0, _ => some false
  | fuel + 1, pattern =>
    if pattern = [] then some false
    else
      match scanChunk pattern with
      | (_, chunk, rest) =>
        if matchChunk chunk [] = .badPattern then none else checkPattern fuel rest

/-- The main loop of `filepath.Match`. -/
def matchAux : Nat → List Char → List Char → Option Bool
  | 0, _, _ => none
  | fuel + 1, pattern, name =>
    if pattern = [] then some name.isEmpty
    else
      match scanChunk pattern with
      | (star, chunk, rest) =>
        if star ∧ chunk = [] then some (!name.contains '/')
        else
          match matchChunk chunk name with
          | .badPattern => none
          | .matched t =>
            if t = [] ∨ rest ≠ [] then matchAux fuel rest t
            else if star then
              match matchAfterStar chunk (decide (rest = [])) name with
              | .matched t1 => matchAux fuel rest t1
              | .badPattern => none
              | .noMatch => checkPattern fuel rest
            else checkPattern fuel rest
          | .noMatch =>
            if star then
              match matchAfterStar chunk (decide (rest = [])) name with
              | .matched t1 => matchAux fuel rest t1
              | .badPattern => none
              | .noMatch => checkPattern fuel rest
            else checkPattern fuel rest

/-- Go `filepath.Match(pattern, name)`: `none` is `ErrBadPattern`. -/
def filepathMatch (pattern name : String) : Option Bool :=
  matchAux (pattern.data.length + 1) pattern.data name.data

/-! ## The file system seen by `filepath.Glob` and `os.Remove` -/

/-- The file system, as far as cleanup reads and changes it: the absolute,
clean paths of the files that exist.  A directory exists when a file lies
below it, and every directory can be listed. -/
abbrev FileSystem := List String

/-- A directory path with its trailing `/`. -/
def dirPrefix (dir : String) : List Char :=
  if dir.data.getLast? = some '/' then dir.data else dir.data ++ ['/']

/-- Go `File.Readdirnames` on `dir`: the name of every entry of the directory
(the first path element below `dir` of every file below it). -/
def readDirNames (fs : FileSystem) (dir : String) : List String :=
  (fs.filterMap (fun p =>
    if (dirPrefix dir).isPrefixOf p.data then
      some (String.mk ((p.data.drop (dirPrefix dir).length).takeWhile (fun c => c ≠ '/')))
    else none)).dedup

/-- Go `os.Lstat` succeeding: the path is a file or a directory. -/
def lstat (fs : FileSystem) (path : String) : Bool :=
  fs.any (fun p => p = path || (dirPrefix path).isPrefixOf p.data)

/-- Go `os.Remove(f)`: `canRemove` says for which paths the removal is
permitted; a refused removal and a path that is no file leave the file system
as it is. -/
def osRemove (canRemove : String → Bool) (fs : FileSystem) (f : String) : FileSystem :=
  if canRemove f then fs.filter (fun p => p ≠ f) else fs

/-- Go `filepath.cleanGlobPath`. -/
def cleanGlobPath (path : String) : String :=
  if path = "" then "."
  else if path = "/" then "/"
  else String.mk path.data.dropLast

/-- The loop of `filepath.glob` over the sorted names of a directory: every
name that matches `pattern` is appended, joined to `dir`; `none` is the error
of a malformed pattern. -/
def globNames (dir pattern : String) : List String → List String → Option (List String)
  | [], m => some m
  | n :: names, m =>
    match filepathMatch pattern n with
    | none => none
    | some true => globNames dir pattern names (m ++ [filepathJoin [dir, n]])
    | some false => globNames dir pattern names m

/-- Go's order on strings (`a <= b`), character by character. -/
def stringLE : List Char → List Char → Bool
  | [], _ => true
  | _ :: _, [] => false
  | a :: as, b :: bs => decide (a.toNat < b.toNat) || (a == b && stringLE as bs)

/-- Go `filepath.glob(dir, pattern, matches)`. -/
def globDir (fs : FileSystem) (dir pattern : String) (found : List String) :
    Option (List String) :=
  globNames dir pattern
    ((readDirNames fs dir).insertionSort (fun a b => stringLE a.data b.data = true)) found

/-- The loop of `filepath.globWithLimit` over the directories that matched. -/
def globDirs (fs : FileSystem) (pattern : String) : List String → List String →
    Option (List String)
  | [], m => some m
  | d :: ds, m =>
    match globDir fs d pattern m with
    | none => none
    | some m1 => globDirs fs pattern ds m1

/-- Go `filepath.globWithLimit`; `none` is the returned error. -/
def globWithLimit (fs : FileSystem) : Nat → String → Nat → Option (List String)
  | 0, _, _ => none
  | fuel + 1, pattern, depth =>
    if depth = 10000 then none
    else if filepathMatch pattern "" = none then none
    else if !hasMeta pattern then (if lstat fs pattern then some [pattern] else some [])
    else
      let dir := cleanGlobPath (filepathSplit pattern).1
      let file := (filepathSplit pattern).2
      if !hasMeta dir then globDir fs dir file []
      else if dir = pattern then none
      else
        match globWithLimit fs fuel dir (depth + 1) with
        | none => none
        | some m => globDirs fs file m []

/-- Go `filepath.Glob(pattern)`. -/
def filepathGlob (fs : FileSystem) (pattern : String) : Option (List String) :=
  globWithLimit fs (pattern.data.length + 1) pattern 0

/-! ## Data model (`corev1.Pod`, as far as the code reads it) -/

/-- The field of `corev1.ContainerStatus` that the manager reads. -/
structure ContainerStatus where
  ContainerID : String
deriving DecidableEq, Repr

/-- The field of `corev1.PodStatus` that the manager reads. -/
structure PodStatus where
  ContainerStatuses : List ContainerStatus
deriving DecidableEq, Repr

/-- A pod snapshot: the fields of `corev1.Pod` read by the controller and the
manager.  `DeletionTimestamp` is `none` for Go's nil pointer. -/
structure Pod where
  Namespace : String
  Name : String
  ResourceVersion : String
  Annotations : List (String × String)
  DeletionTimestamp : Option Nat
  Status : PodStatus
deriving DecidableEq, Repr

/-- The trigger annotation key (`CaptureAnnotation` in both packages). -/
def CaptureAnnotation : String := "tcpdump.antrea.io"

/-- What an informer hands to a delete handler: a pod, a tombstone
(`cache.DeletedFinalStateUnknown`) around another object, or something else. -/
inductive Object where
  | pod (p : Pod)
  | deletedFinalStateUnknown (Key : String) (Obj : Object)
  | other
deriving Repr

/-! ## client-go `cache` helpers -/

/-- client-go `cache.MetaNamespaceKeyFunc` on a pod: `<namespace>/<name>`, or
just `<name>` when the namespace is empty.  It cannot fail on a `*corev1.Pod`. -/
def MetaNamespaceKeyFunc (pod : Pod) : String :=
  if pod.Namespace = "" then pod.Name else pod.Namespace ++ "/" ++ pod.Name

/-- client-go `cache.SplitMetaNamespaceKey`: splits the key at `/`; one part is
a name without namespace, two parts are namespace and name, anything else is
an error (`none`). -/
def SplitMetaNamespaceKey (key : String) : Option (String × String) :=
  match stringsSplit key "/" with
  | [name] => some ("", name)
  | [ns, name] => some (ns, name)
  | _ => none

/-! ## Controller: event handlers

The work queue is represented by the keys handed to `c.queue.Add`, in call
order; each handler maps the queue before to the queue after. -/

/-- The keys passed to `queue.Add` so far. -/
abbrev WorkQueue := List String

/-- One call of `c.queue.Add(key)`. -/
def WorkQueue.Add (q : WorkQueue) (key : String) : WorkQueue := q ++ [key]

/-- `Controller.handlePodAdd`. -/
def handlePodAdd (queue : WorkQueue) (pod : Pod) : WorkQueue :=
  let key := MetaNamespaceKeyFunc pod
  match pod.Annotations.lookup CaptureAnnotation with
  | some _ => queue.Add key
  | none => queue

/-- `Controller.handlePodUpdate`. -/
def handlePodUpdate (queue : WorkQueue) (oldPod newPod : Pod) : WorkQueue :=
  if oldPod.ResourceVersion = newPod.ResourceVersion then queue
  else
    let key := MetaNamespaceKeyFunc newPod
    let oldLookup := oldPod.Annotations.lookup CaptureAnnotation
    let newLookup := newPod.Annotations.lookup CaptureAnnotation
    let oldValue := oldLookup.getD ""
    let newValue := newLookup.getD ""
    let oldHas := oldLookup.isSome
    let newHas := newLookup.isSome
    let queue1 :=
      if (!oldHas && newHas) || (oldHas && newHas && oldValue != newValue) then queue.Add key
      else queue
    if oldHas && !newHas then queue1.Add key else queue1

/-- `Controller.handlePodDelete`: the object is a pod, or a tombstone whose
`Obj` is a pod; every other shape is logged and dropped. -/
def handlePodDelete (queue : WorkQueue) (obj : Object) : WorkQueue :=
  let decoded : Option Pod :=
    match obj with
    | .pod p => some p
    | .deletedFinalStateUnknown _ (.pod p) => some p
    | _ => none
  match decoded with
  | none => queue
  | some pod =>
    let key := MetaNamespaceKeyFunc pod
    match pod.Annotations.lookup CaptureAnnotation with
    | some _ => queue.Add key
    | none => queue

/-! ## Controller: `syncHandler` -/

/-- The two operations of `capture.Manager` that the controller calls, over a
manager state `σ`; `StartCapture` returns `none` for Go's nil error. -/
structure CaptureManager (σ ε : Type) where
  StartCapture : Pod → σ → Option ε × σ
  StopCapture : String → String → σ → σ

/-- The errors `syncHandler` returns. -/
inductive SyncError (ε : Type) where
  | invalidKey (key : String)
  | startFailed (key : String) (err : ε)
deriving DecidableEq, Repr

/-- `Controller.syncHandler`.  `cache` is the informer's indexer (its
`GetByKey` is a map lookup and never fails); the result pairs the returned
error (`none` for nil) with the manager state afterwards. -/
def syncHandler {σ ε : Type} (m : CaptureManager σ ε) (cache : List (String × Pod))
    (key : String) (s : σ) : Option (SyncError ε) × σ :=
  match SplitMetaNamespaceKey key with
  | none => (some (.invalidKey key), s)
  | some (ns, name) =>
    match cache.lookup key with
    | none => (none, m.StopCapture ns name s)
    | some pod =>
      if pod.DeletionTimestamp.isSome then (none, m.StopCapture ns name s)
      else
        match pod.Annotations.lookup CaptureAnnotation with
        | some _ =>
          match m.StartCapture pod s with
          | (some err, s1) => (some (.startFailed key err), s1)
          | (none, s1) => (none, s1)
        | none => (none, m.StopCapture ns name s)

/-- A call made on the capture manager. -/
inductive ManagerCall where
  | start (pod : Pod)
  | stop (ns name : String)
deriving DecidableEq, Repr

/-- A manager that only records the calls made on it; `outcome` fixes what each
`StartCapture` returns. -/
def recordingManager {ε : Type} (outcome : Pod → Option ε) :
    CaptureManager (List ManagerCall) ε where
  StartCapture := fun pod log => (outcome pod, log ++ [.start pod])
  StopCapture := fun ns name log => log ++ [.stop ns name]

/-! ## Process Resolver (`findPidByContainerID`) -/

/-- One entry of `/proc` as `findPidByContainerID` reads it: its name, whether
it is a directory, what `fmt.Sscanf(name, "%d", &testPid)` yields (`none` for an
error), and the lines of its `cgroup` file (`none` when it cannot be opened). -/
structure ProcEntry where
  Name : String
  IsDir : Bool
  scanned : Option Int
  cgroup : Option (List String)
deriving DecidableEq, Repr

/-- The errors of `findPidByContainerID`. -/
inductive ResolveError where
  | readProcFailed
  | pidNotFound (containerID : String)
deriving DecidableEq, Repr

/-- The loop of `findPidByContainerID` over the entries of `/proc`. -/
def scanProc (containerID : String) : List ProcEntry → Option Int
  | [] => none
  | d :: dirs =>
    if !d.IsDir then scanProc containerID dirs
    else
      match d.scanned with
      | none => scanProc containerID dirs
      | some testPid =>
        match d.cgroup with
        | none => scanProc containerID dirs
        | some lines =>
          if lines.any (fun line => stringsContains line containerID) then some testPid
          else scanProc containerID dirs

/-- `findPidByContainerID`; `proc` is the listing of `/proc` (`none` when
`os.ReadDir` fails). -/
def findPidByContainerID (proc : Option (List ProcEntry)) (containerID : String) :
    Except ResolveError Int :=
  match proc with
  | none => .error .readProcFailed
  | some dirs =>
    match scanProc containerID dirs with
    | some pid => .ok pid
    | none => .error (.pidNotFound containerID)

/-! ## Session Manager (`capture.Manager`) -/

/-- The capture directory (`CaptureDir`). -/
def CaptureDir : String := "/var/log/antrea-captures"

/-- A session record.  Its `cancel` function is named by the number of the
context it cancels. -/
structure session where
  cancel : Nat
deriving DecidableEq, Repr

/-- `capture.Manager`: the session table (the mutex is the atomicity of the
operations below). -/
structure Manager where
  sessions : List (String × session)
deriving DecidableEq, Repr

/-- Go `m[key] = v` on a map. -/
def mapSet {β : Type} (m : List (String × β)) (key : String) (v : β) : List (String × β) :=
  (key, v) :: m.filter (fun kv => kv.1 ≠ key)

/-- Go `delete(m, key)` on a map. -/
def mapDelete {β : Type} (m : List (String × β)) (key : String) : List (String × β) :=
  m.filter (fun kv => kv.1 ≠ key)

/-- A goroutine `m.runTcpdump(ctx, pod, pid, limit, key)`: its arguments, and
whether it has returned. -/
structure CaptureTask where
  ctx : Nat
  pod : Pod
  pid : Int
  limit : String
  key : String
  exited : Bool
deriving DecidableEq, Repr

/-- The manager together with what its operations act on: the goroutines
launched so far (the task of context `n` is the `n`-th one), the `cancel`
calls made so far, and the file system. -/
structure World where
  manager : Manager
  tasks : List CaptureTask
  cancelCalls : List Nat
  files : FileSystem
deriving DecidableEq, Repr

/-- `NewManager()` in a world without tasks. -/
def World.new (files : FileSystem) : World :=
  { manager := { sessions := [] }, tasks := [], cancelCalls := [], files := files }

/-- The errors of `StartCapture`, in the order of its checks. -/
inductive StartError where
  | annotationNotFound
  | noContainerStatuses (key : String)
  | invalidContainerID (containerID : String)
  | findPidFailed (cid : String) (err : ResolveError)
deriving DecidableEq, Repr

/-- The rotation limit chosen by `StartCapture` from the annotation value. -/
def captureLimit (value : String) : String :=
  if (Atoi value).isSome then value else "10"

/-- `Manager.StartCapture`; `proc` is the listing of `/proc` at the time of the
call. -/
def StartCapture (proc : Option (List ProcEntry)) (pod : Pod) (w : World) :
    Option StartError × World :=
  let key := pod.Namespace ++ "/" ++ pod.Name
  match w.manager.sessions.lookup key with
  | some _ => (none, w)
  | none =>
    match pod.Annotations.lookup CaptureAnnotation with
    | none => (some .annotationNotFound, w)
    | some value =>
      let limit := captureLimit value
      match pod.Status.ContainerStatuses with
      | [] => (some (.noContainerStatuses key), w)
      | first :: _ =>
        let containerID := first.ContainerID
        let parts := stringsSplit containerID "://"
        if parts.length < 2 then (some (.invalidContainerID containerID), w)
        else
          let cid := parts.getD 1 ""
          match findPidByContainerID proc cid with
          | .error err => (some (.findPidFailed cid err), w)
          | .ok pid =>
            let ctx := w.tasks.length
            (none,
              { w with
                manager := { sessions := mapSet w.manager.sessions key { cancel := ctx } }
                tasks := w.tasks ++
                  [{ ctx := ctx, pod := pod, pid := pid, limit := limit, key := key,
                     exited := false }] })

/-- `Manager.cleanupFiles`. -/
def cleanupFiles (canRemove : String → Bool) (ns podName : String) (w : World) : World :=
  let pattern := filepathJoin [CaptureDir, "capture-" ++ ns ++ "-" ++ podName ++ ".pcap*"]
  match filepathGlob w.files pattern with
  | none => w
  | some found => { w with files := found.foldl (osRemove canRemove) w.files }

/-- `Manager.StopCapture`. -/
def StopCapture (canRemove : String → Bool) (ns name : String) (w : World) : World :=
  let key := ns ++ "/" ++ name
  match w.manager.sessions.lookup key with
  | some sess =>
    let w1 := { w with cancelCalls := w.cancelCalls ++ [sess.cancel] }
    let w2 := { w1 with manager := { sessions := mapDelete w1.manager.sessions key } }
    cleanupFiles canRemove ns name w2
  | none => w

/-- The output file of `runTcpdump`. -/
def pcapFile (pod : Pod) : String :=
  filepathJoin [CaptureDir, "capture-" ++ pod.Namespace ++ "-" ++ pod.Name ++ ".pcap"]

/-- The arguments `runTcpdump` passes to `nsenter`. -/
def tcpdumpArgs (t : CaptureTask) : List String :=
  ["-t", toString t.pid, "-n", "--", "tcpdump", "-Z", "root", "-i", "any", "-C", "1",
   "-W", t.limit, "-w", pcapFile t.pod]

/-- The end of `runTcpdump` for task number `t`: once `cmd.Run()` has returned
(after a cancel, a failure or the tool stopping by itself) the goroutine takes
the lock, runs `delete(m.sessions, key)` and returns. -/
def runTcpdumpExit (t : Nat) (w : World) : World :=
  match w.tasks.get? t with
  | none => w
  | some task =>
    if task.exited then w
    else
      { w with
        manager := { sessions := mapDelete w.manager.sessions task.key }
        tasks := w.tasks.set t { task with exited := true } }

/-- The three things that happen to a manager, each atomic under its mutex. -/
inductive ManagerEvent where
  | start (proc : Option (List ProcEntry)) (pod : Pod)
  | stop (canRemove : String → Bool) (ns name : String)
  | taskExit (t : Nat)

/-- One event. -/
def step (w : World) : ManagerEvent → World
  | .start proc pod => (StartCapture proc pod w).2
  | .stop canRemove ns name => StopCapture canRemove ns name w
  | .taskExit t => runTcpdumpExit t w

/-- An interleaving of events, from left to right. -/
def run (w : World) (events : List ManagerEvent) : World := events.foldl step w

/-- The capture tasks of `key` that are running and whose context has not been
cancelled. -/
def activeTasks (w : World) (key : String) : List CaptureTask :=
  w.tasks.filter (fun t => t.key = key && !t.exited && !w.cancelCalls.contains t.ctx)

/-- The manager as the controller uses it, in a host with a fixed `/proc`
listing and fixed removal permissions. -/
def worldManager (proc : Option (List ProcEntry)) (canRemove : String → Bool) :
    CaptureManager World StartError where
  StartCapture := StartCapture proc
  StopCapture := StopCapture canRemove

/-! ## Error taxonomy (`pkg/utils/errors.go`) -/

/-- `utils.CaptureError`.  `ε` is the type of the wrapped errors; `Err = none`
is Go's nil. -/
structure CaptureError (ε : Type) where
  Operation : String
  Reason : String
  Hint : String
  Err : Option ε
deriving DecidableEq, Repr

/-- `CaptureError.Error`; `render` is what `%v` prints for the wrapped error. -/
def CaptureError.Error {ε : Type} (render : ε → String) (e : CaptureError ε) : String :=
  match e.Err with
  | some err =>
    e.Operation ++ " failed: " ++ e.Reason ++ ". " ++ e.Hint ++ " (underlying error: " ++
      render err ++ ")"
  | none => e.Operation ++ " failed: " ++ e.Reason ++ ". " ++ e.Hint

/-- `CaptureError.Unwrap`. -/
def CaptureError.Unwrap {ε : Type} (e : CaptureError ε) : Option ε := e.Err

/-- `NewCaptureError`. -/
def NewCaptureError {ε : Type} (operation reason hint : String) (err : Option ε) :
    CaptureError ε :=
  { Operation := operation, Reason := reason, Hint := hint, Err := err }

/-- `NewContainerNotFoundError`. -/
def NewContainerNotFoundError {ε : Type} (podName : String) (err : Option ε) :
    CaptureError ε :=
  NewCaptureError "Container discovery"
    ("Could not find container for pod " ++ podName)
    ("Ensure the pod is running and has at least one container. Check pod status with: kubectl describe pod " ++ podName)
    err

/-- `NewProcessNotFoundError`. -/
def NewProcessNotFoundError {ε : Type} (containerID : String) (err : Option ε) :
    CaptureError ε :=
  NewCaptureError "Process discovery"
    ("Could not find process for container " ++ containerID)
    "The container may have just started or terminated. Verify with: kubectl get pod -o jsonpath='\x7b.status.containerStatuses[0].state\x7d'"
    err

/-- `NewTcpdumpExecutionError`. -/
def NewTcpdumpExecutionError {ε : Type} (podName : String) (err : Option ε) :
    CaptureError ε :=
  NewCaptureError "Tcpdump execution"
    ("Failed to start tcpdump for pod " ++ podName)
    "Ensure the controller has privileged access and tcpdump is installed. Check security context in DaemonSet manifest."
    err

/-- `NewFileCleanupError`. -/
def NewFileCleanupError {ε : Type} (filePath : String) (err : Option ε) : CaptureError ε :=
  NewCaptureError "File cleanup"
    ("Failed to remove capture file " ++ filePath)
    "Check file permissions and disk space. The file may have been manually deleted."
    err

/-- `NewAnnotationParseError`. -/
def NewAnnotationParseError {ε : Type} (value : String) (err : Option ε) : CaptureError ε :=
  NewCaptureError "Annotation parsing"
    ("Invalid annotation value: " ++ value)
    "The annotation value must be a positive integer representing max capture files. Example: kubectl annotate pod <name> tcpdump.antrea.io=\"5\""
    err

/-- The shape the specification gives to a constructed error: `Unwrap` is the
cause, the reason contains the argument, the hint is not empty, and the message
is `<operation> failed: <reason>. <hint>`, followed by
` (underlying error: <cause>)` exactly when there is a cause. -/
def specErrorShape {ε : Type} (render : ε → String) (e : CaptureError ε)
    (operation arg hint : String) (cause : Option ε) : Prop :=
  e.Unwrap = cause ∧
  arg.data <:+: e.Reason.data ∧
  hint ≠ "" ∧
  e.Error render =
    operation ++ " failed: " ++ e.Reason ++ ". " ++ hint ++
      (match cause with
       | none => ""
       | some c => " (underlying error: " ++ render c ++ ")")

/-! ## Kubernetes names -/

/-- A character of a Kubernetes name, in the words of the claim: a lowercase
letter, a digit, `-` or `.`. -/
def isK8sChar (c : Char) : Bool :=
  c.isLower || c.isDigit || c = '-' || c = '.'

/-- The name of a capture file without its directory and without the rotation
suffix: `capture-<namespace>-<name>.pcap`. -/
def captureStem (ns name : String) : String :=
  "capture-" ++ ns ++ "-" ++ name ++ ".pcap"

/-! ## The rotation count as the specification words it -/

/-- A positive-integer string, in the words of the specification: one or more
decimal digits whose value is greater than zero. -/
def specPositiveIntegerString (v : String) : Bool :=
  !v.data.isEmpty && v.data.all Char.isDigit && decide (0 < digitsValue v.data)

/-- The rotation count the specification asks for: the value itself when it is
a positive-integer string, the fallback `10` otherwise. -/
def specRotationCount (v : String) : String :=
  if specPositiveIntegerString v then v else "10"

/-! ## Concrete inputs -/

/-- A pod `ns/pod` with one container `containerd://abc` and the given
annotations. -/
def samplePod (annotations : List (String × String)) : Pod :=
  { Namespace := "ns", Name := "pod", ResourceVersion := "1", Annotations := annotations,
    DeletionTimestamp := none,
    Status := { ContainerStatuses := [{ ContainerID := "containerd://abc" }] } }

/-- A `/proc` listing in which process 42 belongs to container `abc`. -/
def sampleProc : Option (List ProcEntry) :=
  some [{ Name := "self", IsDir := true, scanned := none, cgroup := some ["0::/"] },
        { Name := "42", IsDir := true, scanned := some 42,
          cgroup := some ["0::/kubepods/pod1/abc"] }]

/-- Every removal is permitted. -/
def allowAll : String → Bool := fun _ => true

/-- A world in which `ns/pod` has a session, and the capture directory holds its
live file, two rotated files, and the live file of `ns/other`. -/
def sampleCaptureWorld : World :=
  { manager := { sessions := [("ns/pod", { cancel := 0 })] },
    tasks := [],
    cancelCalls := [],
    files := ["/var/log/antrea-captures/capture-ns-pod.pcap",
              "/var/log/antrea-captures/capture-ns-pod.pcap1",
              "/var/log/antrea-captures/capture-ns-pod.pcap2",
              "/var/log/antrea-captures/capture-ns-other.pcap"] }

/-- A world without any session in which the capture directory still holds a
capture file of `ns/pod` (as after a capture task that ended by itself, or a
restart of the controller). -/
def orphanFileWorld : World :=
  { manager := { sessions := [] },
    tasks := [],
    cancelCalls := [],
    files := ["/var/log/antrea-captures/capture-ns-pod.pcap"] }

/-- A pod `ns/pod` with the annotation and one container whose runtime
identifier is `containerID`. -/
def podWithContainerID (containerID : String) : Pod :=
  { Namespace := "ns", Name := "pod", ResourceVersion := "1",
    Annotations := [("tcpdump.antrea.io", "5")], DeletionTimestamp := none,
    Status := { ContainerStatuses := [{ ContainerID := containerID }] } }

/-- A `/proc` listing of a host: process 1 is the host's init, process 42
belongs to container `abc`. -/
def hostProc : Option (List ProcEntry) :=
  some [{ Name := "1", IsDir := true, scanned := some 1, cgroup := some ["0::/init.scope"] },
        { Name := "42", IsDir := true, scanned := some 42,
          cgroup := some ["0::/kubepods/pod1/abc"] },
        { Name := "self", IsDir := true, scanned := none, cgroup := some ["0::/"] }]

/-- A pod with the given namespace and name, the annotation and one container. -/
def podNamed (ns name : String) : Pod :=
  { Namespace := ns, Name := name, ResourceVersion := "1",
    Annotations := [("tcpdump.antrea.io", "5")], DeletionTimestamp := none,
    Status := { ContainerStatuses := [{ ContainerID := "containerd://abc" }] } }

/-- A world in which the workload `b-c` of namespace `a` has a session, and the
capture directory holds `capture-a-b-c.pcap`, which is also the live file of
the workload `c` of namespace `a-b`. -/
def sharedFileWorld : World :=
  { manager := { sessions := [("a/b-c", { cancel := 0 })] },
    tasks := [],
    cancelCalls := [],
    files := ["/var/log/antrea-captures/capture-a-b-c.pcap"] }

/-- An interleaving on one pod: start, stop, start again, the first task's
exit, and one more start. -/
def staleExitTrace : List ManagerEvent :=
  [.start sampleProc (samplePod [("tcpdump.antrea.io", "5")]),
   .stop allowAll "ns" "pod",
   .start sampleProc (samplePod [("tcpdump.antrea.io", "5")]),
   .taskExit 0,
   .start sampleProc (samplePod [("tcpdump.antrea.io", "5")])]

/-! # Theorems -/

/-! ## Helper lemmas: `strings.Split` and maps -/

/-- `splitAux` always returns at least one piece. -/
theorem splitAux_length_pos (sep : List Char) (s : List Char) (skip : Nat) (cur : List Char) :
    1 ≤ (splitAux sep s skip cur).length := by
  induction s generalizing skip cur with
  | nil => simp [splitAux]
  | cons c rest ih =>
    cases skip with
    | zero =>
      simp only [splitAux]
      split
      · simp
      · exact ih 0 (c :: cur)
    | succ k => simpa [splitAux] using ih k cur

/-- Starting between separators, `splitAux` returns a single piece exactly when the
separator does not occur in the text. -/
theorem splitAux_length_lt_two_iff (sep : List Char) (hsep : sep ≠ []) (s cur : List Char) :
    (splitAux sep s 0 cur).length < 2 ↔ ¬ sep <:+: s := by
  induction s generalizing cur with
  | nil => simp [splitAux, hsep]
  | cons c rest ih =>
    simp only [splitAux]
    by_cases hp : sep.isPrefixOf (c :: rest) = true
    · have hpre : sep <+: c :: rest := List.isPrefixOf_iff_prefix.mp hp
      have := splitAux_length_pos sep rest (sep.length - 1) []
      simp only [hp, if_true, List.length_cons]
      constructor
      · intro h; omega
      · intro h; exact absurd hpre.isInfix h
    · have hnpre : ¬ sep <+: c :: rest := fun h => hp (List.isPrefixOf_iff_prefix.mpr h)
      simp only [hp]
      rw [if_neg (by simp), ih, List.infix_cons_iff]
      tauto

/-- `strings.Split` returns fewer than two parts exactly when the separator does not
occur in the string. -/
theorem stringsSplit_length_lt_two_iff (s sep : String) (hsep : sep.data ≠ []) :
    (stringsSplit s sep).length < 2 ↔ ¬ sep.data <:+: s.data := by
  simp [stringsSplit, hsep, splitAux_length_lt_two_iff sep.data hsep]

/-- Splitting at `/` a text without `/` gives the text itself. -/
theorem splitAux_slash_none (b cur : List Char) (h : '/' ∉ b) :
    splitAux ['/'] b 0 cur = [cur.reverse ++ b] := by
  induction b generalizing cur with
  | nil => simp [splitAux]
  | cons c b ih =>
    have hc : c ≠ '/' := fun e => h (e ▸ List.mem_cons_self _ _)
    have hb : '/' ∉ b := fun e => h (List.mem_cons_of_mem _ e)
    have hp : List.isPrefixOf ['/'] (c :: b) = false := by
      simp [List.isPrefixOf, Ne.symm hc]
    simp [splitAux, hp, ih (c :: cur) hb]

/-- Splitting at `/` two texts without `/` joined by one `/` gives the two. -/
theorem splitAux_slash_one (a b cur : List Char) (ha : '/' ∉ a) (hb : '/' ∉ b) :
    splitAux ['/'] (a ++ '/' :: b) 0 cur = [cur.reverse ++ a, b] := by
  induction a generalizing cur with
  | nil =>
    have hp : List.isPrefixOf ['/'] ('/' :: b) = true := by simp [List.isPrefixOf]
    simp [splitAux, hp, splitAux_slash_none b [] hb]
  | cons c a ih =>
    have hc : c ≠ '/' := fun e => ha (e ▸ List.mem_cons_self _ _)
    have ha1 : '/' ∉ a := fun e => ha (List.mem_cons_of_mem _ e)
    have hp : List.isPrefixOf ['/'] (c :: (a ++ '/' :: b)) = false := by
      simp [List.isPrefixOf, Ne.symm hc]
    simp [splitAux, hp, ih (c :: cur) ha1]

/-- The key of a pod whose namespace and name have no `/` splits back into the
two. -/
theorem SplitMetaNamespaceKey_MetaNamespaceKeyFunc (pod : Pod)
    (hns : '/' ∉ pod.Namespace.data) (hname : '/' ∉ pod.Name.data) :
    SplitMetaNamespaceKey (MetaNamespaceKeyFunc pod) = some (pod.Namespace, pod.Name) := by
  unfold MetaNamespaceKeyFunc SplitMetaNamespaceKey stringsSplit
  have hsep : ("/" : String).data = ['/'] := rfl
  by_cases h : pod.Namespace = ""
  · simp [h, hsep, splitAux_slash_none pod.Name.data [] hname]
  · have hd : (pod.Namespace ++ "/" ++ pod.Name).data =
        pod.Namespace.data ++ '/' :: pod.Name.data := by simp
    simp [h, hsep, hd, splitAux_slash_one pod.Namespace.data pod.Name.data [] hns hname]

/-- Two texts that end at the same separator, which occurs in neither, are
equal as soon as one, followed by the separator, starts the other. -/
theorem prefix_sep_cancel (x : Char) (a b r1 r2 : List Char) (ha : x ∉ a) (hb : x ∉ b)
    (h : a ++ x :: r1 <+: b ++ x :: r2) : a = b ∧ r1 <+: r2 := by
  induction a generalizing b with
  | nil =>
    cases b with
    | nil =>
      rw [List.nil_append, List.nil_append, List.cons_prefix_cons] at h
      exact ⟨rfl, h.2⟩
    | cons d b =>
      rw [List.nil_append, List.cons_append, List.cons_prefix_cons] at h
      exact absurd (h.1 ▸ List.mem_cons_self _ _) hb
  | cons c a ih =>
    cases b with
    | nil =>
      rw [List.nil_append, List.cons_append, List.cons_prefix_cons] at h
      exact absurd (h.1 ▸ List.mem_cons_self _ _) ha
    | cons d b =>
      rw [List.cons_append, List.cons_append, List.cons_prefix_cons] at h
      have := ih b (fun e => ha (List.mem_cons_of_mem _ e))
        (fun e => hb (List.mem_cons_of_mem _ e)) h.2
      exact ⟨by rw [h.1, this.1], this.2⟩

/-- Reading a map after `delete(m, key)`. -/
theorem lookup_mapDelete {β : Type} (m : List (String × β)) (key k : String) :
    (mapDelete m key).lookup k = if k = key then none else m.lookup k := by
  induction m with
  | nil => simp [mapDelete]
  | cons kv m ih =>
    obtain ⟨a, b⟩ := kv
    unfold mapDelete at ih ⊢
    by_cases ha : a = key
    · subst ha
      by_cases hk : k = a
      · subst hk; simpa using ih
      · have : (k == a) = false := by simpa using hk
        simpa [List.filter_cons, List.lookup_cons, this, hk] using ih
    · by_cases hk : k = a
      · subst hk
        simp [List.filter_cons, List.lookup_cons, ha]
      · have : (k == a) = false := by simpa using hk
        simpa [List.filter_cons, List.lookup_cons, this, ha] using ih

/-- Reading a map after `m[key] = v`. -/
theorem lookup_mapSet {β : Type} (m : List (String × β)) (key k : String) (v : β) :
    (mapSet m key v).lookup k = if k = key then some v else m.lookup k := by
  unfold mapSet
  by_cases hk : k = key
  · subst hk; simp [List.lookup_cons]
  · have : (k == key) = false := by simpa using hk
    have h2 := lookup_mapDelete m key k
    unfold mapDelete at h2
    simpa [List.lookup_cons, this, hk] using h2

/-- Deleting a key that is not in the map leaves the map as it is. -/
theorem filter_ne_of_lookup_none {β : Type} (m : List (String × β)) (key : String)
    (h : m.lookup key = none) : m.filter (fun kv => kv.1 ≠ key) = m := by
  induction m with
  | nil => rfl
  | cons kv m ih =>
    obtain ⟨a, b⟩ := kv
    by_cases ha : key = a
    · subst ha; simp [List.lookup_cons] at h
    · have hb : (key == a) = false := by simpa using ha
      simp only [List.lookup_cons, hb] at h
      have hne : a ≠ key := fun e => ha e.symm
      rw [List.filter_cons, if_pos (by simpa using hne), ih h]

/-! ## Helper lemmas: the manager's operations -/

/-- `StartCapture` with a session already in the table: nil, and no change. -/
theorem StartCapture_of_session (proc : Option (List ProcEntry)) (pod : Pod) (w : World)
    (sess : session)
    (h : w.manager.sessions.lookup (pod.Namespace ++ "/" ++ pod.Name) = some sess) :
    StartCapture proc pod w = (none, w) := by
  unfold StartCapture
  simp only [h]

/-- `StartCapture` when every check passes: the record is added in front of the
table and one task is appended. -/
theorem StartCapture_ok (proc : Option (List ProcEntry)) (pod : Pod) (w : World)
    (v : String) (first : ContainerStatus) (rest : List ContainerStatus) (pid : Int)
    (hnew : w.manager.sessions.lookup (pod.Namespace ++ "/" ++ pod.Name) = none)
    (ha : pod.Annotations.lookup CaptureAnnotation = some v)
    (hcs : pod.Status.ContainerStatuses = first :: rest)
    (hlen : ¬ (stringsSplit first.ContainerID "://").length < 2)
    (hpid : findPidByContainerID proc ((stringsSplit first.ContainerID "://").getD 1 "") =
      .ok pid) :
    StartCapture proc pod w =
      (none,
        { manager :=
            { sessions :=
                (pod.Namespace ++ "/" ++ pod.Name, { cancel := w.tasks.length }) ::
                  w.manager.sessions },
          tasks := w.tasks ++
            [{ ctx := w.tasks.length, pod := pod, pid := pid, limit := captureLimit v,
               key := pod.Namespace ++ "/" ++ pod.Name, exited := false }],
          cancelCalls := w.cancelCalls,
          files := w.files }) := by
  have hf := filter_ne_of_lookup_none _ _ hnew
  unfold StartCapture
  simp only [hnew, ha, hcs]
  rw [if_neg hlen, hpid]
  simp only [mapSet, hf]

/-- `StartCapture` when only the PID lookup fails. -/
theorem StartCapture_pid_error (proc : Option (List ProcEntry)) (pod : Pod) (w : World)
    (v : String) (first : ContainerStatus) (rest : List ContainerStatus) (err : ResolveError)
    (hnew : w.manager.sessions.lookup (pod.Namespace ++ "/" ++ pod.Name) = none)
    (ha : pod.Annotations.lookup CaptureAnnotation = some v)
    (hcs : pod.Status.ContainerStatuses = first :: rest)
    (hlen : ¬ (stringsSplit first.ContainerID "://").length < 2)
    (hpid : findPidByContainerID proc ((stringsSplit first.ContainerID "://").getD 1 "") =
      .error err) :
    StartCapture proc pod w =
      (some (.findPidFailed ((stringsSplit first.ContainerID "://").getD 1 "") err), w) := by
  unfold StartCapture
  simp only [hnew, ha, hcs]
  rw [if_neg hlen, hpid]

/-- `cleanupFiles` changes nothing but the file system. -/
theorem cleanupFiles_frame (canRemove : String → Bool) (ns podName : String) (w : World) :
    (cleanupFiles canRemove ns podName w).manager = w.manager ∧
    (cleanupFiles canRemove ns podName w).tasks = w.tasks ∧
    (cleanupFiles canRemove ns podName w).cancelCalls = w.cancelCalls := by
  unfold cleanupFiles
  dsimp only
  generalize filepathGlob w.files _ = found
  cases found <;> exact ⟨rfl, rfl, rfl⟩

/-- `StopCapture` with a record at the key: cancel, delete, then clean up. -/
theorem StopCapture_of_session (canRemove : String → Bool) (ns name : String) (w : World)
    (sess : session) (h : w.manager.sessions.lookup (ns ++ "/" ++ name) = some sess) :
    StopCapture canRemove ns name w =
      cleanupFiles canRemove ns name
        { manager := { sessions := mapDelete w.manager.sessions (ns ++ "/" ++ name) },
          tasks := w.tasks,
          cancelCalls := w.cancelCalls ++ [sess.cancel],
          files := w.files } := by
  unfold StopCapture
  simp only [h]

/-- `StopCapture` without a record at the key changes nothing. -/
theorem StopCapture_of_no_session (canRemove : String → Bool) (ns name : String) (w : World)
    (h : w.manager.sessions.lookup (ns ++ "/" ++ name) = none) :
    StopCapture canRemove ns name w = w := by
  unfold StopCapture
  simp only [h]

/-! ## Helper lemmas: `filepath.Match` on ordinary characters followed by a star -/

/-- `chunkLength` on a first character that is not a backslash. -/
theorem chunkLength_cons_of_ne (c : Char) (rest : List Char) (inrange : Bool)
    (h : c ≠ '\\') :
    chunkLength (c :: rest) inrange =
      if c = '[' then 1 + chunkLength rest true
      else if c = ']' then 1 + chunkLength rest false
      else if c = '*' then (if inrange then 1 + chunkLength rest inrange else 0)
      else 1 + chunkLength rest inrange := by
  cases rest <;> simp [chunkLength, h]

/-- A chunk of ordinary characters ends at the star that follows it. -/
theorem chunkLength_literal (L : List Char) (hL : ∀ c ∈ L, isGlobMeta c = false)
    (tail : List Char) : chunkLength (L ++ '*' :: tail) false = L.length := by
  induction L with
  | nil =>
    rw [List.nil_append, chunkLength_cons_of_ne _ _ _ (by decide)]
    simp
  | cons c L ih =>
    have hc := hL c (List.mem_cons_self _ _)
    have ih := ih (fun d hd => hL d (List.mem_cons_of_mem _ hd))
    simp only [isGlobMeta, Bool.or_eq_false_iff, decide_eq_false_iff_not] at hc
    obtain ⟨⟨⟨h1, h2⟩, h3⟩, h4⟩ := hc
    rw [List.cons_append, chunkLength_cons_of_ne _ _ _ h4]
    simp only [h1, h3, if_false, List.length_cons, ih]
    split <;> omega

/-- Once the match has failed, a chunk of ordinary characters is well-formed and
reports no match. -/
theorem matchChunkAux_literal_failed (L : List Char) (hL : ∀ c ∈ L, isGlobMeta c = false)
    (fuel : Nat) (hf : L.length < fuel) (s : List Char) :
    matchChunkAux fuel L s true = .noMatch := by
  induction L generalizing fuel s with
  | nil =>
    cases fuel with
    | zero => omega
    | succ f => simp [matchChunkAux]
  | cons c L ih =>
    have hc := hL c (List.mem_cons_self _ _)
    simp only [isGlobMeta, Bool.or_eq_false_iff, decide_eq_false_iff_not] at hc
    obtain ⟨⟨⟨h1, h2⟩, h3⟩, h4⟩ := hc
    cases fuel with
    | zero => omega
    | succ f =>
      simp only [List.length_cons, Nat.add_lt_add_iff_right] at hf
      simp only [matchChunkAux, h2, h3, h4, if_false, Bool.true_or, if_true]
      exact ih (fun d hd => hL d (List.mem_cons_of_mem _ hd)) f hf s

/-- A chunk of ordinary characters matches exactly when it starts the name, and
leaves the rest of the name. -/
theorem matchChunkAux_literal (L : List Char) (hL : ∀ c ∈ L, isGlobMeta c = false)
    (fuel : Nat) (hf : L.length < fuel) (s : List Char) :
    matchChunkAux fuel L s false =
      if L.isPrefixOf s then .matched (s.drop L.length) else .noMatch := by
  induction L generalizing fuel s with
  | nil =>
    cases fuel with
    | zero => omega
    | succ f => simp [matchChunkAux]
  | cons c L ih =>
    have hc := hL c (List.mem_cons_self _ _)
    have hL' : ∀ d ∈ L, isGlobMeta d = false := fun d hd => hL d (List.mem_cons_of_mem _ hd)
    simp only [isGlobMeta, Bool.or_eq_false_iff, decide_eq_false_iff_not] at hc
    obtain ⟨⟨⟨h1, h2⟩, h3⟩, h4⟩ := hc
    cases fuel with
    | zero => omega
    | succ f =>
      simp only [List.length_cons, Nat.add_lt_add_iff_right] at hf
      cases s with
      | nil =>
        simp only [matchChunkAux, h2, h3, h4, if_false, List.isEmpty_nil, Bool.or_true, if_true,
          Bool.true_or]
        rw [matchChunkAux_literal_failed L hL' f hf]
        simp [List.isPrefixOf]
      | cons d s =>
        simp only [matchChunkAux, h2, h3, h4, if_false, List.isEmpty_cons, Bool.or_false,
          Bool.false_or, List.tail_cons, List.head?_cons, Bool.false_eq_true]
        by_cases hdc : d = c
        · subst hdc
          simp only [ne_eq, not_true_eq_false, decide_False]
          rw [ih hL' f hf s]
          simp [List.isPrefixOf]
        · have : ¬ (some d = some c) := by simpa using hdc
          simp only [ne_eq, this, not_false_eq_true, decide_True]
          rw [matchChunkAux_literal_failed L hL' f hf]
          have hcd : (c == d) = false := by simpa using fun h => hdc h.symm
          simp [List.isPrefixOf, hcd]

/-- `scanChunk` on ordinary characters followed by a star. -/
theorem scanChunk_literal_star (L : List Char) (hL : ∀ c ∈ L, isGlobMeta c = false)
    (hne : L ≠ []) : scanChunk (L ++ ['*']) = (false, L, ['*']) := by
  cases L with
  | nil => exact absurd rfl hne
  | cons c L =>
    have hc := hL c (List.mem_cons_self _ _)
    simp only [isGlobMeta, Bool.or_eq_false_iff, decide_eq_false_iff_not] at hc
    have h1 : ¬ c = '*' := hc.1.1.1
    have hlen := chunkLength_literal (c :: L) hL []
    have hdw : List.dropWhile (fun x => decide (x = '*')) (c :: L ++ ['*']) = c :: L ++ ['*'] := by
      simp [List.dropWhile_cons, h1]
    unfold scanChunk
    simp only [hdw, hlen]
    simp [h1]

/-- The pattern `*` matches every name without a `/`. -/
theorem matchAux_star (fuel : Nat) (t : List Char) :
    matchAux (fuel + 1) ['*'] t = some (!t.contains '/') := by
  have h : scanChunk ['*'] = (true, [], []) := by decide
  simp [matchAux, h]

/-- The pattern `*` is well-formed. -/
theorem checkPattern_star (fuel : Nat) : checkPattern fuel ['*'] = some false := by
  have h : scanChunk ['*'] = (true, [], []) := by decide
  cases fuel with
  | zero => rfl
  | succ f =>
    have h2 : matchChunk [] [] ≠ .badPattern := by decide
    cases f with
    | zero => simp [checkPattern, h, h2]
    | succ g => simp [checkPattern, h, h2]

/-- Ordinary characters followed by a star match the names that start with those
characters and have no `/` after them. -/
theorem matchAux_literal_star (L : List Char) (hL : ∀ c ∈ L, isGlobMeta c = false)
    (hne : L ≠ []) (fuel : Nat) (n : List Char) :
    matchAux (fuel + 2) (L ++ ['*']) n =
      some (L.isPrefixOf n && !(n.drop L.length).contains '/') := by
  have hscan := scanChunk_literal_star L hL hne
  have hchunk : matchChunk L n =
      if L.isPrefixOf n then .matched (n.drop L.length) else .noMatch :=
    matchChunkAux_literal L hL (L.length + 1) (Nat.lt_succ_self _) n
  have hp : L ++ ['*'] ≠ [] := by simp
  rw [matchAux]
  simp only [hp, if_false, hscan, hchunk]
  by_cases hpre : L.isPrefixOf n = true
  · simp [hpre, matchAux_star]
  · simp [hpre, checkPattern_star]

/-- `filepath.Match` on a pattern of ordinary characters followed by a star. -/
theorem filepathMatch_literal_star (lit name : String)
    (hL : ∀ c ∈ lit.data, isGlobMeta c = false) (hne : lit.data ≠ []) :
    filepathMatch (lit ++ "*") name =
      some (lit.data.isPrefixOf name.data &&
        !(name.data.drop lit.data.length).contains '/') := by
  unfold filepathMatch
  have hd : (lit ++ "*").data = lit.data ++ ['*'] := by simp
  rw [hd, List.length_append]
  exact matchAux_literal_star lit.data hL hne lit.data.length name.data

/-! ## Helper lemmas: paths in the capture directory, `filepath.Glob`, cleanup -/

/-- The characters of `CaptureDir`. -/
theorem captureDir_data : CaptureDir.data = "/var/log/antrea-captures".data := rfl

/-- `filepath.Clean` leaves a path `CaptureDir/<f>` as it is when `f` is a single
ordinary path element. -/
theorem filepathClean_captureDir (f : String) (hs : '/' ∉ f.data) (h0 : f.data ≠ [])
    (h1 : f.data ≠ ['.']) (h2 : f.data ≠ ['.', '.']) :
    filepathClean (CaptureDir ++ "/" ++ f) = CaptureDir ++ "/" ++ f := by
  have hd : (CaptureDir ++ "/" ++ f).data =
      List.intercalate ['/'] [[], "var".data, "log".data, "antrea-captures".data, f.data] := by
    simp [List.intercalate, captureDir_data]
  have hsplit : (CaptureDir ++ "/" ++ f).data.splitOn '/' =
      [[], "var".data, "log".data, "antrea-captures".data, f.data] := by
    rw [hd]
    apply List.splitOn_intercalate
    · intro l hl
      simp only [List.mem_cons, List.mem_singleton, List.not_mem_nil, or_false] at hl
      rcases hl with h | h | h | h | h
      · subst h; simp
      · subst h; decide
      · subst h; decide
      · subst h; decide
      · subst h; exact hs
    · simp
  have hne : (CaptureDir ++ "/" ++ f).data ≠ [] := by
    rw [hd]; simp [List.intercalate]
  have hroot : (CaptureDir ++ "/" ++ f).data.head? = some '/' := by
    simp [captureDir_data]
  apply String.ext
  unfold filepathClean
  rw [if_neg hne, hsplit]
  simp only [hroot, decide_True, if_true]
  simp [cleanStep, h0, h1, h2, List.intercalate, captureDir_data]

/-- `filepath.Join(CaptureDir, f)` for a single ordinary path element `f`. -/
theorem filepathJoin_captureDir (f : String) (hs : '/' ∉ f.data) (h0 : f.data ≠ [])
    (h1 : f.data ≠ ['.']) (h2 : f.data ≠ ['.', '.']) :
    filepathJoin [CaptureDir, f] = CaptureDir ++ "/" ++ f := by
  have hc : CaptureDir.data ≠ [] := by decide
  have hi : String.intercalate "/" [CaptureDir, f] = CaptureDir ++ "/" ++ f := rfl
  unfold filepathJoin
  simp only [List.dropWhile_cons, hc, decide_False, Bool.false_eq_true, if_false]
  rw [hi]
  exact filepathClean_captureDir f hs h0 h1 h2

/-- `filepath.Split` cuts `CaptureDir/<g>` after the directory when `g` has no `/`. -/
theorem filepathSplit_captureDir (g : String) (hs : '/' ∉ g.data) :
    filepathSplit (CaptureDir ++ "/" ++ g) = (CaptureDir ++ "/", g) := by
  have hd : (CaptureDir ++ "/" ++ g).data.reverse =
      g.data.reverse ++ '/' :: CaptureDir.data.reverse := by simp
  have hall : ∀ a ∈ g.data.reverse, (fun c => decide (c ≠ '/')) a = true := by
    intro a ha
    have : a ∈ g.data := List.mem_reverse.mp ha
    have hne : a ≠ '/' := fun h => hs (h ▸ this)
    simpa using hne
  unfold filepathSplit
  rw [hd, List.takeWhile_append_of_pos hall, List.dropWhile_append_of_pos hall]
  simp [List.takeWhile_cons, List.dropWhile_cons]
  rfl

/-- `CaptureDir` has no pattern syntax in it. -/
theorem isGlobMeta_captureDir : ∀ c ∈ CaptureDir.data, isGlobMeta c = false := by decide

/-- `filepath.Glob` on `CaptureDir/<lit>*` is one listing of the capture directory. -/
theorem filepathGlob_capture (fs : FileSystem) (lit : String) (hs : '/' ∉ lit.data)
    (hm : ∀ c ∈ lit.data, isGlobMeta c = false) :
    filepathGlob fs (CaptureDir ++ "/" ++ (lit ++ "*")) = globDir fs CaptureDir (lit ++ "*") [] := by
  have hpat : CaptureDir ++ "/" ++ (lit ++ "*") = (CaptureDir ++ "/" ++ lit) ++ "*" := by
    apply String.ext; simp
  have hlitm : ∀ c ∈ (CaptureDir ++ "/" ++ lit).data, isGlobMeta c = false := by
    intro c hc
    simp only [String.data_append, List.mem_append] at hc
    rcases hc with (hc | hc) | hc
    · exact isGlobMeta_captureDir c hc
    · have : c = '/' := by simpa using hc
      subst this; decide
    · exact hm c hc
  have hwell : filepathMatch (CaptureDir ++ "/" ++ (lit ++ "*")) "" ≠ none := by
    rw [hpat, filepathMatch_literal_star _ _ hlitm (by simp [captureDir_data])]
    simp
  have hmeta : hasMeta (CaptureDir ++ "/" ++ (lit ++ "*")) = true := by
    simp [hasMeta, isGlobMeta]
  have hg : '/' ∉ (lit ++ "*").data := by
    simp only [String.data_append, List.mem_append, not_or]
    exact ⟨hs, by decide⟩
  have hsplit := filepathSplit_captureDir (lit ++ "*") hg
  have hclean : cleanGlobPath (CaptureDir ++ "/") = CaptureDir := by decide
  have hdirmeta : hasMeta CaptureDir = false := by decide
  unfold filepathGlob
  rw [globWithLimit]
  simp [hwell, hmeta, hsplit, hclean, hdirmeta]

/-- The loop of `filepath.glob` when every match is well-defined: the names that
match, joined to the directory, in order. -/
theorem globNames_of_match (dir pat : String) (q : String → Bool) (names m : List String)
    (h : ∀ n ∈ names, filepathMatch pat n = some (q n)) :
    globNames dir pat names m =
      some (m ++ (names.filter q).map (fun n => filepathJoin [dir, n])) := by
  induction names generalizing m with
  | nil => simp [globNames]
  | cons n names ih =>
    have hn := h n (List.mem_cons_self _ _)
    have ih := fun m => ih m (fun k hk => h k (List.mem_cons_of_mem _ hk))
    cases hq : q n with
    | true =>
      rw [hq] at hn
      simp [globNames, hn, ih, List.filter_cons, hq]
    | false =>
      rw [hq] at hn
      simp [globNames, hn, ih, List.filter_cons, hq]

/-- A file directly in the capture directory is listed by name. -/
theorem mem_readDirNames_captureDir (fs : FileSystem) (n : String) (hs : '/' ∉ n.data)
    (h : CaptureDir ++ "/" ++ n ∈ fs) : n ∈ readDirNames fs CaptureDir := by
  have hdp : dirPrefix CaptureDir = CaptureDir.data ++ ['/'] := by decide
  have hdata : (CaptureDir ++ "/" ++ n).data = (CaptureDir.data ++ ['/']) ++ n.data := by simp
  have hpre : (CaptureDir.data ++ ['/']).isPrefixOf (CaptureDir ++ "/" ++ n).data = true := by
    rw [hdata]
    exact List.isPrefixOf_iff_prefix.mpr (List.prefix_append _ _)
  have hdrop : (CaptureDir ++ "/" ++ n).data.drop (CaptureDir.data ++ ['/']).length = n.data := by
    rw [hdata, List.drop_left]
  have htake : n.data.takeWhile (fun c => decide (c ≠ '/')) = n.data := by
    rw [List.takeWhile_eq_self_iff]
    intro c hc
    have : c ≠ '/' := fun e => hs (e ▸ hc)
    simpa using this
  unfold readDirNames
  rw [List.mem_dedup, List.mem_filterMap]
  refine ⟨CaptureDir ++ "/" ++ n, h, ?_⟩
  rw [hdp, if_pos hpre, hdrop, htake]

/-- The removal loop creates no file. -/
theorem mem_of_mem_foldl_osRemove (canRemove : String → Bool) (found : List String)
    (fs : FileSystem) (q : String) (h : q ∈ found.foldl (osRemove canRemove) fs) : q ∈ fs := by
  induction found generalizing fs with
  | nil => exact h
  | cons f rest ih =>
    have h1 := ih (osRemove canRemove fs f) h
    unfold osRemove at h1
    split at h1
    · exact (List.mem_filter.mp h1).1
    · exact h1

/-- The removal loop removes every listed path whose removal is permitted. -/
theorem not_mem_foldl_osRemove (canRemove : String → Bool) (found : List String)
    (fs : FileSystem) (p : String) (hp : p ∈ found) (hc : canRemove p = true) :
    p ∉ found.foldl (osRemove canRemove) fs := by
  induction found generalizing fs with
  | nil => cases hp
  | cons f rest ih =>
    by_cases hpf : p = f
    · subst hpf
      intro hmem
      have h1 := mem_of_mem_foldl_osRemove canRemove rest _ p hmem
      simp [osRemove, hc] at h1
    · have hrest : p ∈ rest := by
        cases hp with
        | head => exact absurd rfl hpf
        | tail _ h => exact h
      exact ih (osRemove canRemove fs f) hrest

/-- The removal loop leaves a file that is not among the listed paths. -/
theorem mem_foldl_osRemove_of_not_mem (canRemove : String → Bool) (found : List String)
    (fs : FileSystem) (p : String) (hp : p ∈ fs) (hnot : p ∉ found) :
    p ∈ found.foldl (osRemove canRemove) fs := by
  induction found generalizing fs with
  | nil => exact hp
  | cons f rest ih =>
    have hpf : p ≠ f := fun e => hnot (e ▸ List.mem_cons_self _ _)
    apply ih _ _ (fun e => hnot (List.mem_cons_of_mem _ e))
    unfold osRemove
    split
    · exact List.mem_filter.mpr ⟨hp, by simpa using hpf⟩
    · exact hp

/-- `cleanupFiles` leaves no permitted-to-remove file
`capture-<ns>-<name>.pcap<suffix>` in the capture directory, for a namespace and
name without `/` and without pattern syntax. -/
theorem cleanupFiles_removes (canRemove : String → Bool) (ns name suffix : String) (w : World)
    (hns : ∀ c ∈ ns.data, c ≠ '/' ∧ isGlobMeta c = false)
    (hname : ∀ c ∈ name.data, c ≠ '/' ∧ isGlobMeta c = false)
    (hsuffix : '/' ∉ suffix.data)
    (hperm : canRemove
      (CaptureDir ++ "/capture-" ++ ns ++ "-" ++ name ++ ".pcap" ++ suffix) = true) :
    CaptureDir ++ "/capture-" ++ ns ++ "-" ++ name ++ ".pcap" ++ suffix ∉
      (cleanupFiles canRemove ns name w).files := by
  -- the literal part of the pattern
  have hlit_data : ("capture-" ++ ns ++ "-" ++ name ++ ".pcap").data =
      "capture-".data ++ ns.data ++ "-".data ++ name.data ++ ".pcap".data := by simp
  have hlit_sep : '/' ∉ ("capture-" ++ ns ++ "-" ++ name ++ ".pcap").data := by
    rw [hlit_data]
    simp only [List.mem_append, not_or]
    exact ⟨⟨⟨⟨by decide, fun h => (hns _ h).1 rfl⟩, by decide⟩, fun h => (hname _ h).1 rfl⟩,
      by decide⟩
  have hlit_meta : ∀ c ∈ ("capture-" ++ ns ++ "-" ++ name ++ ".pcap").data,
      isGlobMeta c = false := by
    intro c hc
    rw [hlit_data] at hc
    simp only [List.mem_append] at hc
    rcases hc with (((hc | hc) | hc) | hc) | hc
    · revert c; decide
    · exact (hns c hc).2
    · revert c; decide
    · exact (hname c hc).2
    · revert c; decide
  have hpat : "capture-" ++ ns ++ "-" ++ name ++ ".pcap*" =
      ("capture-" ++ ns ++ "-" ++ name ++ ".pcap") ++ "*" := by
    apply String.ext
    have : (".pcap*" : String).data = ".pcap".data ++ "*".data := by decide
    simp [this]
  have hglob_sep : '/' ∉ (("capture-" ++ ns ++ "-" ++ name ++ ".pcap") ++ "*").data := by
    simp only [String.data_append, List.mem_append, not_or]
    exact ⟨by simpa using hlit_sep, by decide⟩
  have hhead : ∀ t : String, ("capture-" ++ ns ++ "-" ++ name ++ ".pcap" ++ t).data =
      'c' :: 'a' :: ("pture-".data ++ ns.data ++ "-".data ++ name.data ++ ".pcap".data ++
        t.data) := by
    intro t
    have : ("capture-" : String).data = 'c' :: 'a' :: "pture-".data := by decide
    simp [this]
  have hjoin : filepathJoin [CaptureDir, "capture-" ++ ns ++ "-" ++ name ++ ".pcap*"] =
      CaptureDir ++ "/" ++ (("capture-" ++ ns ++ "-" ++ name ++ ".pcap") ++ "*") := by
    rw [hpat]
    apply filepathJoin_captureDir _ hglob_sep <;> rw [hhead "*"] <;> simp
  -- the file to be removed, as a directory entry
  have hfile_sep : '/' ∉ ("capture-" ++ ns ++ "-" ++ name ++ ".pcap" ++ suffix).data := by
    simp only [String.data_append, List.mem_append, not_or]
    exact ⟨by simpa using hlit_sep, hsuffix⟩
  have hpath : CaptureDir ++ "/capture-" ++ ns ++ "-" ++ name ++ ".pcap" ++ suffix =
      CaptureDir ++ "/" ++ ("capture-" ++ ns ++ "-" ++ name ++ ".pcap" ++ suffix) := by
    apply String.ext
    have : ("/capture-" : String).data = "/".data ++ "capture-".data := by decide
    simp [this]
  have hfile_join : filepathJoin [CaptureDir, "capture-" ++ ns ++ "-" ++ name ++ ".pcap" ++ suffix]
      = CaptureDir ++ "/" ++ ("capture-" ++ ns ++ "-" ++ name ++ ".pcap" ++ suffix) := by
    apply filepathJoin_captureDir _ hfile_sep <;> rw [hhead suffix] <;> simp
  have hmatch : ∀ n : String,
      filepathMatch (("capture-" ++ ns ++ "-" ++ name ++ ".pcap") ++ "*") n =
        some (("capture-" ++ ns ++ "-" ++ name ++ ".pcap").data.isPrefixOf n.data &&
          !(n.data.drop ("capture-" ++ ns ++ "-" ++ name ++ ".pcap").data.length).contains
            '/') := by
    intro n
    apply filepathMatch_literal_star _ _ hlit_meta
    rw [hlit_data]; simp
  unfold cleanupFiles
  simp only [hjoin, filepathGlob_capture w.files _ hlit_sep hlit_meta, globDir]
  rw [globNames_of_match CaptureDir _ _ _ [] (fun n _ => hmatch n)]
  simp only [List.nil_append]
  by_cases hin : CaptureDir ++ "/capture-" ++ ns ++ "-" ++ name ++ ".pcap" ++ suffix ∈ w.files
  · apply not_mem_foldl_osRemove _ _ _ _ _ hperm
    rw [List.mem_map]
    refine ⟨"capture-" ++ ns ++ "-" ++ name ++ ".pcap" ++ suffix, ?_, ?_⟩
    · rw [List.mem_filter]
      constructor
      · rw [List.mem_insertionSort]
        apply mem_readDirNames_captureDir _ _ hfile_sep
        rw [← hpath]; exact hin
      · have hpre : ("capture-" ++ ns ++ "-" ++ name ++ ".pcap").data.isPrefixOf
            ("capture-" ++ ns ++ "-" ++ name ++ ".pcap" ++ suffix).data = true := by
          rw [String.data_append _ suffix]
          exact List.isPrefixOf_iff_prefix.mpr (List.prefix_append _ _)
        have hdrop : ("capture-" ++ ns ++ "-" ++ name ++ ".pcap" ++ suffix).data.drop
            ("capture-" ++ ns ++ "-" ++ name ++ ".pcap").data.length = suffix.data := by
          rw [String.data_append _ suffix, List.drop_left]
        rw [hpre, hdrop]
        simpa using hsuffix
    · rw [hfile_join, hpath]
  · intro hmem
    exact hin (mem_of_mem_foldl_osRemove _ _ _ _ hmem)

/-! ## Helper lemmas: capture file names of two identities -/

/-- A character of a Kubernetes name is neither `/` nor pattern syntax. -/
theorem isK8sChar_plain (c : Char) (h : isK8sChar c = true) :
    c ≠ '/' ∧ isGlobMeta c = false := by
  have hne : ∀ d : Char, isK8sChar d = false → c ≠ d := by
    intro d hd hcd
    subst hcd
    rw [hd] at h
    cases h
  have h0 := hne '/' (by decide)
  have h1 := hne '*' (by decide)
  have h2 := hne '?' (by decide)
  have h3 := hne '[' (by decide)
  have h4 := hne '\\' (by decide)
  exact ⟨h0, by simp [isGlobMeta, h1, h2, h3, h4]⟩

/-- The characters of a capture file name. -/
theorem captureStem_data (ns name t : String) :
    (captureStem ns name ++ t).data =
      "capture-".data ++ (ns.data ++ '-' :: (name.data ++ '.' :: ("pcap".data ++ t.data))) := by
  have h1 : ("-" : String).data = ['-'] := rfl
  have h2 : (".pcap" : String).data = '.' :: "pcap".data := rfl
  simp [captureStem, h1, h2]

/-- A capture file name of a namespace and name without `/` and pattern syntax
has neither. -/
theorem captureStem_plain (ns name : String)
    (hns : ∀ c ∈ ns.data, c ≠ '/' ∧ isGlobMeta c = false)
    (hname : ∀ c ∈ name.data, c ≠ '/' ∧ isGlobMeta c = false) :
    ∀ c ∈ (captureStem ns name).data, c ≠ '/' ∧ isGlobMeta c = false := by
  intro c hc
  have hlit1 : ∀ c ∈ "capture-".data, c ≠ '/' ∧ isGlobMeta c = false := by decide
  have hlit2 : ∀ c ∈ "pcap".data, c ≠ '/' ∧ isGlobMeta c = false := by decide
  have hd := captureStem_data ns name ""
  simp only [String.append_empty] at hd
  rw [hd] at hc
  rcases List.mem_append.mp hc with hc | hc
  · exact hlit1 c hc
  · rcases List.mem_append.mp hc with hc | hc
    · exact hns c hc
    · rcases List.mem_cons.mp hc with hc | hc
      · subst hc; decide
      · rcases List.mem_append.mp hc with hc | hc
        · exact hname c hc
        · rcases List.mem_cons.mp hc with hc | hc
          · subst hc; decide
          · rcases List.mem_append.mp hc with hc | hc
            · exact hlit2 c hc
            · simp at hc

/-- A capture file name, with anything after it, starts with `ca`: it is
neither empty nor `.` nor `..`. -/
theorem captureStem_head (ns name t : String) :
    ∃ r, (captureStem ns name ++ t).data = 'c' :: 'a' :: r :=
  ⟨_, by rw [captureStem_data]; rfl⟩

/-- For two different identities with names without `.` and with namespaces
that are equal or without `-`, the capture file name of the first does not
start a capture file name of the second, whatever the rotation suffix. -/
theorem captureStem_not_isPrefix (ns1 name1 ns2 name2 suffix : String)
    (hnsp : ns1 = ns2 ∨ ('-' ∉ ns1.data ∧ '-' ∉ ns2.data))
    (hdot1 : '.' ∉ name1.data) (hdot2 : '.' ∉ name2.data)
    (hne : (ns1, name1) ≠ (ns2, name2)) :
    ¬ (captureStem ns1 name1).data <+: (captureStem ns2 name2 ++ suffix).data := by
  intro h
  have h1 := captureStem_data ns1 name1 ""
  simp only [String.append_empty] at h1
  rw [h1, captureStem_data ns2 name2 suffix, List.prefix_append_right_inj] at h
  have hrest : ns1.data = ns2.data ∧
      name1.data ++ '.' :: ("pcap".data ++ "".data) <+:
        name2.data ++ '.' :: ("pcap".data ++ suffix.data) := by
    rcases hnsp with heq | ⟨hd1, hd2⟩
    · subst heq
      rw [List.prefix_append_right_inj, List.cons_prefix_cons] at h
      exact ⟨rfl, h.2⟩
    · exact prefix_sep_cancel '-' _ _ _ _ hd1 hd2 h
  have hname := (prefix_sep_cancel '.' _ _ _ _ hdot1 hdot2 hrest.2).1
  exact hne (Prod.ext (String.ext hrest.1) (String.ext hname))

/-- The cleanup pattern of one identity, matched against a capture file name of
another: the match succeeds exactly when the first file name starts the
second. -/
theorem filepathMatch_captureStem (ns1 name1 ns2 name2 suffix : String)
    (hns1 : ∀ c ∈ ns1.data, c ≠ '/' ∧ isGlobMeta c = false)
    (hname1 : ∀ c ∈ name1.data, c ≠ '/' ∧ isGlobMeta c = false)
    (hns2 : ∀ c ∈ ns2.data, c ≠ '/' ∧ isGlobMeta c = false)
    (hname2 : ∀ c ∈ name2.data, c ≠ '/' ∧ isGlobMeta c = false)
    (hsuffix : '/' ∉ suffix.data) :
    filepathMatch (captureStem ns1 name1 ++ "*") (captureStem ns2 name2 ++ suffix) =
      some ((captureStem ns1 name1).data.isPrefixOf (captureStem ns2 name2 ++ suffix).data) := by
  have hp1 := captureStem_plain ns1 name1 hns1 hname1
  have hp2 := captureStem_plain ns2 name2 hns2 hname2
  have hne : (captureStem ns1 name1).data ≠ [] := by
    have := captureStem_data ns1 name1 ""
    simp only [String.append_empty] at this
    rw [this]; simp
  have hslash : '/' ∉ (captureStem ns2 name2 ++ suffix).data := by
    rw [String.data_append, List.mem_append, not_or]
    exact ⟨fun h => (hp2 _ h).1 rfl, hsuffix⟩
  have hdrop : ((captureStem ns2 name2 ++ suffix).data.drop
      (captureStem ns1 name1).data.length).contains '/' = false := by
    rw [Bool.eq_false_iff]
    intro hc
    have hmem : '/' ∈ (captureStem ns2 name2 ++ suffix).data.drop
        (captureStem ns1 name1).data.length := by simpa using hc
    exact hslash (List.mem_of_mem_drop hmem)
  rw [filepathMatch_literal_star _ _ (fun c hc => (hp1 c hc).2) hne, hdrop]
  simp

/-- A text that starts with a capture file name and has no `/` is joined to the
capture directory as it is. -/
theorem filepathJoin_captureStem (ns name : String) (n : String)
    (hns : ∀ c ∈ ns.data, c ≠ '/' ∧ isGlobMeta c = false)
    (hname : ∀ c ∈ name.data, c ≠ '/' ∧ isGlobMeta c = false)
    (hpre : (captureStem ns name).data <+: n.data)
    (hrest : '/' ∉ n.data.drop (captureStem ns name).data.length) :
    filepathJoin [CaptureDir, n] = CaptureDir ++ "/" ++ n := by
  obtain ⟨t, ht⟩ := hpre
  have hn : n = captureStem ns name ++ String.mk t := String.ext (by simp [ht])
  have hslash : '/' ∉ n.data := by
    rw [← ht, List.mem_append, not_or]
    refine ⟨fun h => (captureStem_plain ns name hns hname _ h).1 rfl, ?_⟩
    rw [← ht, List.drop_left] at hrest
    exact hrest
  obtain ⟨r, hr⟩ := captureStem_head ns name (String.mk t)
  rw [← hn] at hr
  apply filepathJoin_captureDir n hslash <;> rw [hr] <;> simp

/-- The live file of a pod whose namespace and name have no `/` and no pattern
syntax. -/
theorem pcapFile_eq (ns name : String)
    (hns : ∀ c ∈ ns.data, c ≠ '/' ∧ isGlobMeta c = false)
    (hname : ∀ c ∈ name.data, c ≠ '/' ∧ isGlobMeta c = false) :
    pcapFile (podNamed ns name) = CaptureDir ++ "/" ++ captureStem ns name := by
  show filepathJoin [CaptureDir, captureStem ns name] = _
  apply filepathJoin_captureStem ns name _ hns hname (List.prefix_refl _)
  rw [List.drop_length]
  exact List.not_mem_nil _

/-- What `cleanupFiles` does to the file system for a namespace and name without
`/` and pattern syntax: it lists the capture directory, keeps the entries that
start with the capture file name, and removes them one by one. -/
theorem cleanupFiles_files (canRemove : String → Bool) (ns name : String) (w : World)
    (hns : ∀ c ∈ ns.data, c ≠ '/' ∧ isGlobMeta c = false)
    (hname : ∀ c ∈ name.data, c ≠ '/' ∧ isGlobMeta c = false) :
    (cleanupFiles canRemove ns name w).files =
      ((((readDirNames w.files CaptureDir).insertionSort
            (fun a b => stringLE a.data b.data = true)).filter
          (fun n => (captureStem ns name).data.isPrefixOf n.data &&
            !(n.data.drop (captureStem ns name).data.length).contains '/')).map
        (fun n => filepathJoin [CaptureDir, n])).foldl (osRemove canRemove) w.files := by
  have hp := captureStem_plain ns name hns hname
  have hpat : "capture-" ++ ns ++ "-" ++ name ++ ".pcap*" = captureStem ns name ++ "*" := by
    apply String.ext
    have : (".pcap*" : String).data = ".pcap".data ++ "*".data := by decide
    simp [captureStem, this]
  have hstar_sep : '/' ∉ (captureStem ns name ++ "*").data := by
    rw [String.data_append, List.mem_append, not_or]
    exact ⟨fun h => (hp _ h).1 rfl, by decide⟩
  obtain ⟨r, hr⟩ := captureStem_head ns name "*"
  have hjoin : filepathJoin [CaptureDir, "capture-" ++ ns ++ "-" ++ name ++ ".pcap*"] =
      CaptureDir ++ "/" ++ (captureStem ns name ++ "*") := by
    rw [hpat]
    apply filepathJoin_captureDir _ hstar_sep <;> rw [hr] <;> simp
  have hne : (captureStem ns name).data ≠ [] := by
    obtain ⟨r0, hr0⟩ := captureStem_head ns name ""
    simp only [String.append_empty] at hr0
    rw [hr0]; simp
  unfold cleanupFiles
  simp only [hjoin, filepathGlob_capture w.files _ (fun h => (hp _ h).1 rfl)
    (fun c hc => (hp c hc).2), globDir]
  rw [globNames_of_match CaptureDir _ _ _ []
    (fun n _ => filepathMatch_literal_star _ n (fun c hc => (hp c hc).2) hne)]
  simp only [List.nil_append]

/-- `cleanupFiles` keeps every file of the capture directory whose name does not
start with the capture file name of the identity. -/
theorem cleanupFiles_keeps (canRemove : String → Bool) (ns name : String) (w : World)
    (f : String)
    (hns : ∀ c ∈ ns.data, c ≠ '/' ∧ isGlobMeta c = false)
    (hname : ∀ c ∈ name.data, c ≠ '/' ∧ isGlobMeta c = false)
    (hnot : ¬ (captureStem ns name).data <+: f.data)
    (hin : CaptureDir ++ "/" ++ f ∈ w.files) :
    CaptureDir ++ "/" ++ f ∈ (cleanupFiles canRemove ns name w).files := by
  rw [cleanupFiles_files canRemove ns name w hns hname]
  apply mem_foldl_osRemove_of_not_mem _ _ _ _ hin
  intro hmem
  obtain ⟨n, hn, hjoin⟩ := List.mem_map.mp hmem
  have hq := (List.mem_filter.mp hn).2
  simp only [Bool.and_eq_true, Bool.not_eq_true', List.isPrefixOf_iff_prefix] at hq
  have hrest : '/' ∉ n.data.drop (captureStem ns name).data.length := by
    intro h
    have : (n.data.drop (captureStem ns name).data.length).contains '/' = true := by
      simpa using h
    rw [hq.2] at this
    cases this
  rw [filepathJoin_captureStem ns name n hns hname hq.1 hrest] at hjoin
  have hdata := congrArg String.data hjoin
  simp only [String.data_append] at hdata
  have hnf : n.data = f.data := List.append_cancel_left hdata
  exact hnot (hnf ▸ hq.1)

/-! ## Helper lemma: error taxonomy -/

/-- A constructed error has the shape of the specification for the operation
and hint it was built with, when the reason ends with the argument. -/
theorem specErrorShape_NewCaptureError {ε : Type} (render : ε → String)
    (operation reasonStart arg hint : String) (cause : Option ε) (hhint : hint ≠ "") :
    specErrorShape render (NewCaptureError operation (reasonStart ++ arg) hint cause)
      operation arg hint cause := by
  refine ⟨rfl, ?_, hhint, ?_⟩
  · show arg.data <:+: (reasonStart ++ arg).data
    rw [String.data_append]
    exact (List.suffix_append _ _).isInfix
  · cases cause with
    | none => simp [CaptureError.Error, NewCaptureError]
    | some c => simp [CaptureError.Error, NewCaptureError, String.append_assoc]

/-! ## Controller (C1 to C3) -/

/-- C1 (counterexample): the key `a/b/c` is absent from the empty cache, yet
`syncHandler` returns the invalid-key error and calls neither `StopCapture` nor
`StartCapture`: the key is split first, and a key with more than one `/` is
rejected before the cache is read. -/
theorem syncHandler_invalid_key_no_stop :
    ([] : List (String × Pod)).lookup "a/b/c" = none ∧
    syncHandler (recordingManager (fun _ => (none : Option Unit))) [] "a/b/c" [] =
      (some (SyncError.invalidKey "a/b/c"), []) := by
  decide

/-- C1 (amended): for every key that `SplitMetaNamespaceKey` splits into
`(ns, name)`, every cache and every manager: a key absent from the cache
gives `StopCapture ns name` and success; a cached pod with a deletion
timestamp gives `StopCapture ns name` and success, whatever its annotations;
otherwise a pod with the annotation gives `StartCapture pod`, and the result
is that call's error wrapped (nil exactly when the call returned nil);
otherwise `StopCapture ns name` and success.  In the three stop cases the
manager state is the one `StopCapture` alone produces. -/
theorem syncHandler_decision {σ ε : Type} (m : CaptureManager σ ε)
    (cache : List (String × Pod)) (key ns name : String) (s : σ)
    (hkey : SplitMetaNamespaceKey key = some (ns, name)) :
    (cache.lookup key = none →
      syncHandler m cache key s = (none, m.StopCapture ns name s)) ∧
    (∀ pod, cache.lookup key = some pod → pod.DeletionTimestamp ≠ none →
      syncHandler m cache key s = (none, m.StopCapture ns name s)) ∧
    (∀ pod, cache.lookup key = some pod → pod.DeletionTimestamp = none →
      pod.Annotations.lookup CaptureAnnotation ≠ none →
      syncHandler m cache key s =
        ((m.StartCapture pod s).1.map (SyncError.startFailed key), (m.StartCapture pod s).2) ∧
      ((syncHandler m cache key s).1 = none ↔ (m.StartCapture pod s).1 = none)) ∧
    (∀ pod, cache.lookup key = some pod → pod.DeletionTimestamp = none →
      pod.Annotations.lookup CaptureAnnotation = none →
      syncHandler m cache key s = (none, m.StopCapture ns name s)) := by
  refine ⟨?_, ?_, ?_, ?_⟩
  · intro hc
    simp [syncHandler, hkey, hc]
  · intro pod hc hdel
    cases hd : pod.DeletionTimestamp with
    | none => exact absurd hd hdel
    | some t => simp [syncHandler, hkey, hc, hd]
  · intro pod hc hdel hann
    cases ha : pod.Annotations.lookup CaptureAnnotation with
    | none => exact absurd ha hann
    | some v =>
      rcases hs : m.StartCapture pod s with ⟨err, s1⟩
      cases err <;> simp [syncHandler, hkey, hc, hdel, ha, hs]
  · intro pod hc hdel hann
    simp [syncHandler, hkey, hc, hdel, hann]

/-- C1 (witness): on the key `ns/pod`, absent from the cache, the recording
manager sees exactly one call, `StopCapture "ns" "pod"`, and the result is
success. -/
theorem syncHandler_decision_witness :
    SplitMetaNamespaceKey "ns/pod" = some ("ns", "pod") ∧
    syncHandler (recordingManager (fun _ => (none : Option Unit))) [] "ns/pod" [] =
      (none, [ManagerCall.stop "ns" "pod"]) :=
  ⟨by decide,
   (syncHandler_decision (recordingManager (fun _ => (none : Option Unit))) []
      "ns/pod" "ns" "pod" [] (by decide)).1 rfl⟩

/-- C2: `handlePodUpdate` adds the new pod's key to the queue exactly once when
the resource versions differ and the annotation went from absent to present,
or is present in both with different values, or went from present to absent;
in every other case the queue is left as it was. -/
theorem handlePodUpdate_enqueues (queue : WorkQueue) (oldPod newPod : Pod) :
    handlePodUpdate queue oldPod newPod =
      if oldPod.ResourceVersion ≠ newPod.ResourceVersion ∧
          ((oldPod.Annotations.lookup CaptureAnnotation = none ∧
              newPod.Annotations.lookup CaptureAnnotation ≠ none) ∨
           (oldPod.Annotations.lookup CaptureAnnotation ≠ none ∧
              newPod.Annotations.lookup CaptureAnnotation ≠ none ∧
              oldPod.Annotations.lookup CaptureAnnotation ≠
                newPod.Annotations.lookup CaptureAnnotation) ∨
           (oldPod.Annotations.lookup CaptureAnnotation ≠ none ∧
              newPod.Annotations.lookup CaptureAnnotation = none))
      then queue ++ [MetaNamespaceKeyFunc newPod]
      else queue := by
  unfold handlePodUpdate
  by_cases hrv : oldPod.ResourceVersion = newPod.ResourceVersion
  · simp [hrv]
  · cases ho : oldPod.Annotations.lookup CaptureAnnotation <;>
      cases hn : newPod.Annotations.lookup CaptureAnnotation <;>
      simp [hrv, WorkQueue.Add]

/-- C3: an Add notification and a Delete notification for a pod each add the
pod's key to the queue exactly when the pod carries the annotation, and leave
the queue as it was otherwise; a tombstone around the pod has the same effect
as the pod itself; and the key is `<namespace>/<name>` for a pod with a
namespace. -/
theorem handlePodAdd_handlePodDelete_enqueue (queue : WorkQueue) (pod : Pod)
    (tombstoneKey : String) :
    handlePodAdd queue pod =
      (if pod.Annotations.lookup CaptureAnnotation ≠ none
        then queue ++ [MetaNamespaceKeyFunc pod] else queue) ∧
    handlePodDelete queue (.pod pod) =
      (if pod.Annotations.lookup CaptureAnnotation ≠ none
        then queue ++ [MetaNamespaceKeyFunc pod] else queue) ∧
    handlePodDelete queue (.deletedFinalStateUnknown tombstoneKey (.pod pod)) =
      handlePodDelete queue (.pod pod) ∧
    (pod.Namespace ≠ "" → MetaNamespaceKeyFunc pod = pod.Namespace ++ "/" ++ pod.Name) := by
  refine ⟨?_, ?_, rfl, ?_⟩
  · unfold handlePodAdd
    cases h : pod.Annotations.lookup CaptureAnnotation <;> simp [WorkQueue.Add]
  · cases h : pod.Annotations.lookup CaptureAnnotation <;>
      simp [handlePodDelete, WorkQueue.Add, h]
  · intro h
    simp [MetaNamespaceKeyFunc, h]

/-- C3 (witness): a pod `default/web` with the annotation is enqueued under the
key `default/web` by a Delete notification that carries it in a tombstone. -/
theorem handlePodAdd_handlePodDelete_enqueue_witness :
    handlePodDelete []
      (.deletedFinalStateUnknown "default/web"
        (.pod { Namespace := "default", Name := "web", ResourceVersion := "7",
                Annotations := [("tcpdump.antrea.io", "3")], DeletionTimestamp := none,
                Status := { ContainerStatuses := [] } })) = ["default/web"] := by
  have h := handlePodAdd_handlePodDelete_enqueue []
    { Namespace := "default", Name := "web", ResourceVersion := "7",
      Annotations := [("tcpdump.antrea.io", "3")], DeletionTimestamp := none,
      Status := { ContainerStatuses := [] } } "default/web"
  rw [h.2.2.1, h.2.1]
  decide

/-! ## Session Manager (C4 to C10) -/

/-- C4 (the code at the failing input): from an empty manager, start, stop,
start, exit of the first task, start.  After the fourth event the second task
is running and not cancelled while the table holds no record at all (the
first task's exit deleted the second task's record); after the fifth the
identity `ns/pod` has two running, uncancelled capture tasks, of which the
table records only the last. -/
theorem stale_exit_breaks_single_session :
    (activeTasks (run (World.new []) (staleExitTrace.take 4)) "ns/pod").map (fun t => t.ctx) = [1] ∧
    (run (World.new []) (staleExitTrace.take 4)).manager.sessions = [] ∧
    (activeTasks (run (World.new []) staleExitTrace) "ns/pod").map (fun t => t.ctx) = [1, 2] ∧
    (run (World.new []) staleExitTrace).manager.sessions = [("ns/pod", { cancel := 2 })] := by
  decide

/-- C5 (the code at the failing input): the identity `ns/pod` has no session, the
pod carries the annotation and one container status.  With the runtime
identifier `containerd://`, which has a runtime and no id, `StartCapture` does
not return the malformed-container-id error: it asks the resolver for the
empty id, returns nil, records a session and launches a task on the host's
process 1.  With `://abc`, which has an id and no runtime, it likewise returns
nil and launches a task on process 42. -/
theorem StartCapture_accepts_identifier_without_id :
    (World.new []).manager.sessions.lookup "ns/pod" = none ∧
    (podWithContainerID "containerd://").Annotations.lookup CaptureAnnotation = some "5" ∧
    StartCapture hostProc (podWithContainerID "containerd://") (World.new []) ≠
      (some (.invalidContainerID "containerd://"), World.new []) ∧
    StartCapture hostProc (podWithContainerID "containerd://") (World.new []) =
      (none,
        { manager := { sessions := [("ns/pod", { cancel := 0 })] },
          tasks := [{ ctx := 0, pod := podWithContainerID "containerd://", pid := 1,
                      limit := "5", key := "ns/pod", exited := false }],
          cancelCalls := [],
          files := [] }) ∧
    StartCapture hostProc (podWithContainerID "://abc") (World.new []) =
      (none,
        { manager := { sessions := [("ns/pod", { cancel := 0 })] },
          tasks := [{ ctx := 0, pod := podWithContainerID "://abc", pid := 42,
                      limit := "5", key := "ns/pod", exited := false }],
          cancelCalls := [],
          files := [] }) := by
  decide

/-- The checks of `StartCapture` as the code makes them, when the pod's identity
has no session: annotation missing; no container status; first container id
without `://`; no PID found for the second piece of the split at `://`, in
this order.  Every failure leaves the world (table, tasks, cancel calls,
files) as it was.  When none applies, the call succeeds, the table gains the
one record at the identity's key and one task is launched.  An identifier that
contains `://` with nothing before or after it is not among the failures. -/
theorem StartCapture_errors_in_order (proc : Option (List ProcEntry)) (pod : Pod) (w : World)
    (hnew : w.manager.sessions.lookup (pod.Namespace ++ "/" ++ pod.Name) = none) :
    (pod.Annotations.lookup CaptureAnnotation = none →
      StartCapture proc pod w = (some .annotationNotFound, w)) ∧
    (pod.Annotations.lookup CaptureAnnotation ≠ none →
      pod.Status.ContainerStatuses = [] →
      StartCapture proc pod w =
        (some (.noContainerStatuses (pod.Namespace ++ "/" ++ pod.Name)), w)) ∧
    (∀ first rest, pod.Annotations.lookup CaptureAnnotation ≠ none →
      pod.Status.ContainerStatuses = first :: rest →
      ¬ "://".data <:+: first.ContainerID.data →
      StartCapture proc pod w = (some (.invalidContainerID first.ContainerID), w)) ∧
    (∀ first rest err, pod.Annotations.lookup CaptureAnnotation ≠ none →
      pod.Status.ContainerStatuses = first :: rest →
      "://".data <:+: first.ContainerID.data →
      findPidByContainerID proc ((stringsSplit first.ContainerID "://").getD 1 "") =
        .error err →
      StartCapture proc pod w =
        (some (.findPidFailed ((stringsSplit first.ContainerID "://").getD 1 "") err), w)) ∧
    (∀ first rest pid, pod.Annotations.lookup CaptureAnnotation ≠ none →
      pod.Status.ContainerStatuses = first :: rest →
      "://".data <:+: first.ContainerID.data →
      findPidByContainerID proc ((stringsSplit first.ContainerID "://").getD 1 "") =
        .ok pid →
      (StartCapture proc pod w).1 = none ∧
      (StartCapture proc pod w).2.manager.sessions =
        (pod.Namespace ++ "/" ++ pod.Name, { cancel := w.tasks.length }) ::
          w.manager.sessions ∧
      (∃ t, (StartCapture proc pod w).2.tasks = w.tasks ++ [t] ∧
        t.ctx = w.tasks.length ∧ t.key = pod.Namespace ++ "/" ++ pod.Name ∧
        t.exited = false) ∧
      (StartCapture proc pod w).2.cancelCalls = w.cancelCalls ∧
      (StartCapture proc pod w).2.files = w.files) := by
  have hsep : ("://" : String).data ≠ [] := by decide
  refine ⟨?_, ?_, ?_, ?_, ?_⟩
  · intro hann
    simp [StartCapture, hnew, hann]
  · intro hann hcs
    cases ha : pod.Annotations.lookup CaptureAnnotation with
    | none => exact absurd ha hann
    | some v => simp [StartCapture, hnew, ha, hcs]
  · intro first rest hann hcs hno
    have hlen := (stringsSplit_length_lt_two_iff first.ContainerID "://" hsep).mpr hno
    cases ha : pod.Annotations.lookup CaptureAnnotation with
    | none => exact absurd ha hann
    | some v => simp [StartCapture, hnew, ha, hcs, hlen]
  · intro first rest err hann hcs hyes hpid
    have hlen : ¬ (stringsSplit first.ContainerID "://").length < 2 := fun h =>
      (stringsSplit_length_lt_two_iff first.ContainerID "://" hsep).mp h hyes
    cases ha : pod.Annotations.lookup CaptureAnnotation with
    | none => exact absurd ha hann
    | some v => exact StartCapture_pid_error proc pod w v first rest err hnew ha hcs hlen hpid
  · intro first rest pid hann hcs hyes hpid
    have hlen : ¬ (stringsSplit first.ContainerID "://").length < 2 := fun h =>
      (stringsSplit_length_lt_two_iff first.ContainerID "://" hsep).mp h hyes
    cases ha : pod.Annotations.lookup CaptureAnnotation with
    | none => exact absurd ha hann
    | some v =>
      rw [StartCapture_ok proc pod w v first rest pid hnew ha hcs hlen hpid]
      exact ⟨rfl, rfl, ⟨_, rfl, rfl, rfl, rfl⟩, rfl, rfl⟩

/-- An instance of the checks: the pod `ns/pod` with annotation `5` and container
`containerd://abc`, on an empty manager whose host runs the container as
process 42: the call succeeds and the table is the single record `ns/pod`. -/
theorem StartCapture_errors_in_order_witness :
    (World.new []).manager.sessions.lookup "ns/pod" = none ∧
    (StartCapture sampleProc (samplePod [("tcpdump.antrea.io", "5")]) (World.new [])).1 = none ∧
    (StartCapture sampleProc (samplePod [("tcpdump.antrea.io", "5")])
      (World.new [])).2.manager.sessions = [("ns/pod", { cancel := 0 })] :=
  have h := (StartCapture_errors_in_order sampleProc (samplePod [("tcpdump.antrea.io", "5")])
    (World.new []) (by decide)).2.2.2.2 { ContainerID := "containerd://abc" } [] 42
    (by decide) rfl (by decide) rfl
  ⟨by decide, h.1, h.2.1⟩

/-- C6 (counterexample): the pod `ns/pod` without the annotation, on a manager
that already holds a session for `ns/pod`: `StartCapture` returns nil, not the
annotation-missing error. -/
theorem StartCapture_annotation_missing_existing_session :
    (samplePod []).Annotations.lookup CaptureAnnotation = none ∧
    StartCapture sampleProc (samplePod [])
        { World.new [] with manager := { sessions := [("ns/pod", { cancel := 0 })] } } =
      (none, { World.new [] with manager := { sessions := [("ns/pod", { cancel := 0 })] } }) := by
  decide

/-- C6 (amended): for a pod without the annotation, `StartCapture` returns the
annotation-missing error whenever the table has no session for the pod's
identity, and changes nothing; when the table has one, it returns nil and
changes nothing (the check for an existing session comes first). -/
theorem StartCapture_annotation_missing (proc : Option (List ProcEntry)) (pod : Pod)
    (w : World) (hann : pod.Annotations.lookup CaptureAnnotation = none) :
    (w.manager.sessions.lookup (pod.Namespace ++ "/" ++ pod.Name) = none →
      StartCapture proc pod w = (some .annotationNotFound, w)) ∧
    (w.manager.sessions.lookup (pod.Namespace ++ "/" ++ pod.Name) ≠ none →
      StartCapture proc pod w = (none, w)) := by
  constructor
  · intro hnew
    simp [StartCapture, hnew, hann]
  · intro hex
    cases hs : w.manager.sessions.lookup (pod.Namespace ++ "/" ++ pod.Name) with
    | none => exact absurd hs hex
    | some sess => simp [StartCapture, hs]

/-- C6 (witness): the pod `ns/pod` without the annotation on an empty manager
gets the annotation-missing error. -/
theorem StartCapture_annotation_missing_witness :
    (samplePod []).Annotations.lookup CaptureAnnotation = none ∧
    StartCapture sampleProc (samplePod []) (World.new []) =
      (some .annotationNotFound, World.new []) :=
  ⟨by decide,
   (StartCapture_annotation_missing sampleProc (samplePod []) (World.new [])
      (by decide)).1 (by decide)⟩

/-- C7: after a `StartCapture` that returned nil, a `StartCapture` for the same
identity (any snapshot of it, any `/proc` listing, even an unreadable one)
returns nil and leaves the world as the first call left it: the table still
holds the record of the first call, no task is added, and the result does not
depend on the Process Resolver.  When the first call created the session, that
record names the one task the first call launched. -/
theorem StartCapture_idempotent (proc proc2 : Option (List ProcEntry)) (pod pod2 : Pod)
    (w : World) (hns : pod2.Namespace = pod.Namespace) (hname : pod2.Name = pod.Name)
    (hok : (StartCapture proc pod w).1 = none) :
    (StartCapture proc pod w).2.manager.sessions.lookup (pod.Namespace ++ "/" ++ pod.Name)
      ≠ none ∧
    StartCapture proc2 pod2 (StartCapture proc pod w).2 =
      (none, (StartCapture proc pod w).2) ∧
    (w.manager.sessions.lookup (pod.Namespace ++ "/" ++ pod.Name) = none →
      (StartCapture proc pod w).2.manager.sessions.lookup (pod.Namespace ++ "/" ++ pod.Name) =
        some { cancel := w.tasks.length } ∧
      (StartCapture proc2 pod2 (StartCapture proc pod w).2).2.tasks.length =
        w.tasks.length + 1) := by
  have hrec : (StartCapture proc pod w).2.manager.sessions.lookup
        (pod.Namespace ++ "/" ++ pod.Name) ≠ none ∧
      (w.manager.sessions.lookup (pod.Namespace ++ "/" ++ pod.Name) = none →
        (StartCapture proc pod w).2.manager.sessions.lookup
            (pod.Namespace ++ "/" ++ pod.Name) = some { cancel := w.tasks.length } ∧
        (StartCapture proc pod w).2.tasks.length = w.tasks.length + 1) := by
    cases hs : w.manager.sessions.lookup (pod.Namespace ++ "/" ++ pod.Name) with
    | some sess =>
      rw [StartCapture_of_session proc pod w sess hs]
      simp [hs]
    | none =>
      cases ha : pod.Annotations.lookup CaptureAnnotation with
      | none => simp [StartCapture, hs, ha] at hok
      | some v =>
        cases hcs : pod.Status.ContainerStatuses with
        | nil => simp [StartCapture, hs, ha, hcs] at hok
        | cons first rest =>
          by_cases hlen : (stringsSplit first.ContainerID "://").length < 2
          · simp [StartCapture, hs, ha, hcs, hlen] at hok
          · cases hpid : findPidByContainerID proc
                ((stringsSplit first.ContainerID "://").getD 1 "") with
            | error err =>
              rw [StartCapture_pid_error proc pod w v first rest err hs ha hcs hlen hpid] at hok
              simp at hok
            | ok pid =>
              rw [StartCapture_ok proc pod w v first rest pid hs ha hcs hlen hpid]
              simp [List.lookup_cons]
  have hsecond : StartCapture proc2 pod2 (StartCapture proc pod w).2 =
      (none, (StartCapture proc pod w).2) := by
    cases hs : (StartCapture proc pod w).2.manager.sessions.lookup
        (pod.Namespace ++ "/" ++ pod.Name) with
    | none => exact absurd hs hrec.1
    | some sess =>
      exact StartCapture_of_session proc2 pod2 _ sess (by rw [hns, hname]; exact hs)
  refine ⟨hrec.1, hsecond, ?_⟩
  intro hnew
  rw [hsecond]
  exact hrec.2 hnew

/-- C7 (witness): starting `ns/pod` twice on an empty manager gives one record
and one task, also when `/proc` cannot be read at the second call. -/
theorem StartCapture_idempotent_witness :
    (StartCapture sampleProc (samplePod [("tcpdump.antrea.io", "5")]) (World.new [])).1 = none ∧
    StartCapture none (samplePod [("tcpdump.antrea.io", "5")])
        (StartCapture sampleProc (samplePod [("tcpdump.antrea.io", "5")]) (World.new [])).2 =
      (none, (StartCapture sampleProc (samplePod [("tcpdump.antrea.io", "5")])
        (World.new [])).2) :=
  ⟨by decide,
   (StartCapture_idempotent sampleProc none (samplePod [("tcpdump.antrea.io", "5")])
      (samplePod [("tcpdump.antrea.io", "5")]) (World.new []) rfl rfl (by decide)).2.1⟩

/-- C8: when the table has a record at `ns/name`, `StopCapture` invokes that
record's cancel function once and no other, the table afterwards is the old
one without that key (every other key reads as before), no task is added, and
a second `StopCapture` changes nothing more; when the table has no such
record, `StopCapture` changes nothing at all (no cancel call, no file
removed). -/
theorem StopCapture_effect (canRemove : String → Bool) (ns name : String) (w : World) :
    (∀ sess, w.manager.sessions.lookup (ns ++ "/" ++ name) = some sess →
      (StopCapture canRemove ns name w).cancelCalls = w.cancelCalls ++ [sess.cancel] ∧
      (∀ k, (StopCapture canRemove ns name w).manager.sessions.lookup k =
        if k = ns ++ "/" ++ name then none else w.manager.sessions.lookup k) ∧
      (StopCapture canRemove ns name w).tasks = w.tasks ∧
      StopCapture canRemove ns name (StopCapture canRemove ns name w) =
        StopCapture canRemove ns name w) ∧
    (w.manager.sessions.lookup (ns ++ "/" ++ name) = none →
      StopCapture canRemove ns name w = w) := by
  refine ⟨?_, StopCapture_of_no_session canRemove ns name w⟩
  intro sess h
  have hstop := StopCapture_of_session canRemove ns name w sess h
  have hframe := cleanupFiles_frame canRemove ns name
    { manager := { sessions := mapDelete w.manager.sessions (ns ++ "/" ++ name) },
      tasks := w.tasks,
      cancelCalls := w.cancelCalls ++ [sess.cancel],
      files := w.files }
  have htable : ∀ k, (StopCapture canRemove ns name w).manager.sessions.lookup k =
      if k = ns ++ "/" ++ name then none else w.manager.sessions.lookup k := by
    intro k
    rw [hstop, hframe.1]
    exact lookup_mapDelete w.manager.sessions (ns ++ "/" ++ name) k
  refine ⟨?_, htable, ?_, ?_⟩
  · rw [hstop, hframe.2.2]
  · rw [hstop, hframe.2.1]
  · apply StopCapture_of_no_session
    rw [htable]
    simp

/-- C8 (witness): stopping `ns/pod` on a table that holds `ns/pod` (handle 7)
and `ns/other` (handle 8) invokes handle 7 only and leaves `ns/other`. -/
theorem StopCapture_effect_witness :
    (StopCapture allowAll "ns" "pod"
      { World.new [] with
        manager := { sessions := [("ns/pod", { cancel := 7 }), ("ns/other", { cancel := 8 })] } }
      ).cancelCalls = [7] ∧
    (StopCapture allowAll "ns" "pod"
      { World.new [] with
        manager := { sessions := [("ns/pod", { cancel := 7 }), ("ns/other", { cancel := 8 })] } }
      ).manager.sessions.lookup "ns/other" = some { cancel := 8 } := by
  have h := (StopCapture_effect allowAll "ns" "pod"
    { World.new [] with
      manager := { sessions := [("ns/pod", { cancel := 7 }), ("ns/other", { cancel := 8 })] } }
    ).1 { cancel := 7 } (by decide)
  refine ⟨h.1, ?_⟩
  rw [h.2.1]
  decide

/-- C9 (counterexample): `9223372036854775808` is a positive-integer string, so
the specification asks for the value itself, yet the capture command gets the
fallback `-W 10` (the value does not fit a 64-bit `int`); and `0` is not a
positive-integer string, so the specification asks for the fallback `10`, yet
the capture command gets `-W 0`. -/
theorem rotation_count_differs_from_spec :
    specRotationCount "9223372036854775808" = "9223372036854775808" ∧
    (StartCapture sampleProc (samplePod [("tcpdump.antrea.io", "9223372036854775808")])
      (World.new [])).2.tasks.map tcpdumpArgs =
      [["-t", "42", "-n", "--", "tcpdump", "-Z", "root", "-i", "any", "-C", "1", "-W", "10",
        "-w", "/var/log/antrea-captures/capture-ns-pod.pcap"]] ∧
    specRotationCount "0" = "10" ∧
    (StartCapture sampleProc (samplePod [("tcpdump.antrea.io", "0")])
      (World.new [])).2.tasks.map tcpdumpArgs =
      [["-t", "42", "-n", "--", "tcpdump", "-Z", "root", "-i", "any", "-C", "1", "-W", "0",
        "-w", "/var/log/antrea-captures/capture-ns-pod.pcap"]] := by
  decide

/-- C9 (amended): for every annotation value `v`, when the identity has no
session, a container status is present, its id splits at `://` and the PID is
found, `StartCapture` succeeds, records the session and launches one task.
The `-W` argument of that task is `v` itself when `v` is a positive-integer
string below `2^63`, and `10` when `strconv.Atoi` rejects `v`; the value never
makes the start fail. -/
theorem StartCapture_rotation_count (proc : Option (List ProcEntry)) (pod : Pod) (w : World)
    (v : String) (first : ContainerStatus) (rest : List ContainerStatus) (pid : Int)
    (hnew : w.manager.sessions.lookup (pod.Namespace ++ "/" ++ pod.Name) = none)
    (ha : pod.Annotations.lookup CaptureAnnotation = some v)
    (hcs : pod.Status.ContainerStatuses = first :: rest)
    (hlen : 2 ≤ (stringsSplit first.ContainerID "://").length)
    (hpid : findPidByContainerID proc ((stringsSplit first.ContainerID "://").getD 1 "") =
      .ok pid) :
    (StartCapture proc pod w).1 = none ∧
    (StartCapture proc pod w).2.manager.sessions.lookup (pod.Namespace ++ "/" ++ pod.Name) =
      some { cancel := w.tasks.length } ∧
    ∃ limit : String,
      (StartCapture proc pod w).2.tasks.map tcpdumpArgs =
        w.tasks.map tcpdumpArgs ++
          [["-t", toString pid, "-n", "--", "tcpdump", "-Z", "root", "-i", "any", "-C", "1",
            "-W", limit, "-w", pcapFile pod]] ∧
      (specPositiveIntegerString v = true → digitsValue v.data < 2 ^ 63 → limit = v) ∧
      (Atoi v = none → limit = "10") := by
  rw [StartCapture_ok proc pod w v first rest pid hnew ha hcs (by omega) hpid]
  refine ⟨rfl, by simp [List.lookup_cons], captureLimit v, by simp [tcpdumpArgs], ?_, ?_⟩
  · intro hpos hrange
    have hsome : (Atoi v).isSome = true := by
      unfold specPositiveIntegerString at hpos
      unfold Atoi
      cases hd : v.data with
      | nil => simp [hd] at hpos
      | cons c cs =>
        simp only [hd, Bool.and_eq_true, List.all_cons, decide_eq_true_eq] at hpos hrange
        obtain ⟨⟨_, hc, hcs1⟩, _⟩ := hpos
        have hminus : c ≠ '-' := by
          intro h; rw [h] at hc; exact absurd hc (by decide)
        have hplus : c ≠ '+' := by
          intro h; rw [h] at hc; exact absurd hc (by decide)
        have hr : digitsValue (c :: cs) < 9223372036854775808 := by
          simpa using hrange
        simp [hminus, hplus, hc, hcs1, hr]
    simp [captureLimit, hsome]
  · intro hnone
    simp [captureLimit, hnone]

/-- C9 (witness): the annotation value `abc` on `ns/pod`: the start succeeds
and the capture command gets `-W 10`. -/
theorem StartCapture_rotation_count_witness :
    Atoi "abc" = none ∧
    (StartCapture sampleProc (samplePod [("tcpdump.antrea.io", "abc")]) (World.new [])).1 = none ∧
    (StartCapture sampleProc (samplePod [("tcpdump.antrea.io", "abc")])
      (World.new [])).2.tasks.map tcpdumpArgs =
      [["-t", "42", "-n", "--", "tcpdump", "-Z", "root", "-i", "any", "-C", "1", "-W", "10",
        "-w", "/var/log/antrea-captures/capture-ns-pod.pcap"]] := by
  have h := StartCapture_rotation_count sampleProc (samplePod [("tcpdump.antrea.io", "abc")])
    (World.new []) "abc" { ContainerID := "containerd://abc" } [] 42
    (by decide) (by decide) rfl (by decide) rfl
  obtain ⟨h1, _, limit, hargs, _, hfallback⟩ := h
  refine ⟨by decide, h1, ?_⟩
  rw [hargs, hfallback (by decide)]
  decide

/-- C10: for an identity whose namespace and name contain no `/` and no glob
metacharacter (`*`, `?`, `[`, backslash), `StopCapture` on an active session
leaves no file of the capture directory named
`capture-<namespace>-<name>.pcap<suffix>`, for any suffix (the empty one
included), provided the removal of that file is permitted. -/
theorem StopCapture_removes_capture_files (canRemove : String → Bool)
    (ns name suffix : String) (w : World) (sess : session)
    (hns : ∀ c ∈ ns.data, c ≠ '/' ∧ isGlobMeta c = false)
    (hname : ∀ c ∈ name.data, c ≠ '/' ∧ isGlobMeta c = false)
    (hsuffix : '/' ∉ suffix.data)
    (hsess : w.manager.sessions.lookup (ns ++ "/" ++ name) = some sess)
    (hperm : canRemove
      (CaptureDir ++ "/capture-" ++ ns ++ "-" ++ name ++ ".pcap" ++ suffix) = true) :
    CaptureDir ++ "/capture-" ++ ns ++ "-" ++ name ++ ".pcap" ++ suffix ∉
      (StopCapture canRemove ns name w).files := by
  rw [StopCapture_of_session canRemove ns name w sess hsess]
  exact cleanupFiles_removes canRemove ns name suffix _ hns hname hsuffix hperm

/-- C10 (witness): with `capture-ns-pod.pcap`, `capture-ns-pod.pcap1` and
`capture-ns-pod.pcap2` in the capture directory, stopping `ns/pod` removes all
three (and leaves the file of `ns/other`). -/
theorem StopCapture_removes_capture_files_witness :
    "/var/log/antrea-captures/capture-ns-pod.pcap" ∉
      (StopCapture allowAll "ns" "pod" sampleCaptureWorld).files ∧
    "/var/log/antrea-captures/capture-ns-pod.pcap1" ∉
      (StopCapture allowAll "ns" "pod" sampleCaptureWorld).files ∧
    "/var/log/antrea-captures/capture-ns-pod.pcap2" ∉
      (StopCapture allowAll "ns" "pod" sampleCaptureWorld).files ∧
    (StopCapture allowAll "ns" "pod" sampleCaptureWorld).files =
      ["/var/log/antrea-captures/capture-ns-other.pcap"] :=
  ⟨StopCapture_removes_capture_files allowAll "ns" "pod" "" sampleCaptureWorld { cancel := 0 }
      (by decide) (by decide) (by decide) (by decide) rfl,
   StopCapture_removes_capture_files allowAll "ns" "pod" "1" sampleCaptureWorld { cancel := 0 }
      (by decide) (by decide) (by decide) (by decide) rfl,
   StopCapture_removes_capture_files allowAll "ns" "pod" "2" sampleCaptureWorld { cancel := 0 }
      (by decide) (by decide) (by decide) (by decide) rfl,
   by decide⟩

/-! ## Deleted workloads (C11) -/

/-- C11 (counterexample): the identity `ns/pod` is absent from the cache and no
session is recorded for it, while the capture directory holds
`capture-ns-pod.pcap`, whose removal is permitted: `syncHandler` returns
success and the file is still there. -/
theorem syncHandler_deleted_keeps_orphan_file :
    ([] : List (String × Pod)).lookup "ns/pod" = none ∧
    orphanFileWorld.manager.sessions.lookup "ns/pod" = none ∧
    (syncHandler (worldManager sampleProc allowAll) [] "ns/pod" orphanFileWorld).1 = none ∧
    "/var/log/antrea-captures/capture-ns-pod.pcap" ∈
      (syncHandler (worldManager sampleProc allowAll) [] "ns/pod" orphanFileWorld).2.files := by
  decide

/-- C11 (amended): for a deleted workload (its key is absent from the cache)
whose namespace and name contain no `/` and no glob metacharacter,
`syncHandler` on its key returns success and leaves no session record for the
identity.  When a session was recorded, no file
`capture-<namespace>-<name>.pcap<suffix>` whose removal is permitted is left
in the capture directory; when none was recorded, the world (files included)
is left as it was. -/
theorem syncHandler_deleted_workload (proc : Option (List ProcEntry))
    (canRemove : String → Bool) (cache : List (String × Pod)) (pod : Pod) (w : World)
    (hns : ∀ c ∈ pod.Namespace.data, c ≠ '/' ∧ isGlobMeta c = false)
    (hname : ∀ c ∈ pod.Name.data, c ≠ '/' ∧ isGlobMeta c = false)
    (hgone : cache.lookup (MetaNamespaceKeyFunc pod) = none) :
    (syncHandler (worldManager proc canRemove) cache (MetaNamespaceKeyFunc pod) w).1 = none ∧
    (syncHandler (worldManager proc canRemove) cache
      (MetaNamespaceKeyFunc pod) w).2.manager.sessions.lookup
        (pod.Namespace ++ "/" ++ pod.Name) = none ∧
    (w.manager.sessions.lookup (pod.Namespace ++ "/" ++ pod.Name) ≠ none →
      ∀ suffix : String, '/' ∉ suffix.data →
        canRemove (CaptureDir ++ "/capture-" ++ pod.Namespace ++ "-" ++ pod.Name ++ ".pcap" ++
          suffix) = true →
        CaptureDir ++ "/capture-" ++ pod.Namespace ++ "-" ++ pod.Name ++ ".pcap" ++ suffix ∉
          (syncHandler (worldManager proc canRemove) cache
            (MetaNamespaceKeyFunc pod) w).2.files) ∧
    (w.manager.sessions.lookup (pod.Namespace ++ "/" ++ pod.Name) = none →
      (syncHandler (worldManager proc canRemove) cache (MetaNamespaceKeyFunc pod) w).2 = w) := by
  have hsplit := SplitMetaNamespaceKey_MetaNamespaceKeyFunc pod
    (fun h => (hns _ h).1 rfl) (fun h => (hname _ h).1 rfl)
  have hsync : syncHandler (worldManager proc canRemove) cache (MetaNamespaceKeyFunc pod) w =
      (none, StopCapture canRemove pod.Namespace pod.Name w) := by
    simp [syncHandler, hsplit, hgone, worldManager]
  rw [hsync]
  refine ⟨rfl, ?_, ?_, ?_⟩
  · cases hs : w.manager.sessions.lookup (pod.Namespace ++ "/" ++ pod.Name) with
    | none =>
      show (StopCapture canRemove pod.Namespace pod.Name w).manager.sessions.lookup _ = none
      rw [StopCapture_of_no_session canRemove _ _ w hs]
      exact hs
    | some sess =>
      show (StopCapture canRemove pod.Namespace pod.Name w).manager.sessions.lookup _ = none
      rw [StopCapture_of_session canRemove _ _ w sess hs, (cleanupFiles_frame _ _ _ _).1]
      simp [lookup_mapDelete]
  · intro hrec suffix hsuffix hperm
    cases hs : w.manager.sessions.lookup (pod.Namespace ++ "/" ++ pod.Name) with
    | none => exact absurd hs hrec
    | some sess =>
      show _ ∉ (StopCapture canRemove pod.Namespace pod.Name w).files
      rw [StopCapture_of_session canRemove _ _ w sess hs]
      exact cleanupFiles_removes canRemove _ _ suffix _ hns hname hsuffix hperm
  · intro hs
    exact StopCapture_of_no_session canRemove _ _ w hs

/-- C11 (witness): `ns/pod` is absent from the cache while its session is
recorded and its three capture files exist: after `syncHandler` the session
is gone and so are the three files. -/
theorem syncHandler_deleted_workload_witness :
    ([] : List (String × Pod)).lookup "ns/pod" = none ∧
    (syncHandler (worldManager sampleProc allowAll) [] "ns/pod"
      sampleCaptureWorld).2.manager.sessions.lookup "ns/pod" = none ∧
    "/var/log/antrea-captures/capture-ns-pod.pcap1" ∉
      (syncHandler (worldManager sampleProc allowAll) [] "ns/pod" sampleCaptureWorld).2.files :=
  have h := syncHandler_deleted_workload sampleProc allowAll [] (samplePod []) sampleCaptureWorld
    (by decide) (by decide) (by decide)
  ⟨by decide, h.2.1, h.2.2.1 (by decide) "1" (by decide) rfl⟩

/-! ## Error taxonomy (C12) -/

/-- C12 (counterexample): the hint of the container-not-found error is not
fixed for the kind: it ends with the pod name, so the pods `a` and `b` get
different hints. -/
theorem container_not_found_hint_varies :
    (NewContainerNotFoundError "a" (none : Option String)).Hint ≠
      (NewContainerNotFoundError "b" (none : Option String)).Hint ∧
    ¬ ∃ hint : String, ∀ podName : String,
      (NewContainerNotFoundError podName (none : Option String)).Hint = hint := by
  have h : (NewContainerNotFoundError "a" (none : Option String)).Hint ≠
      (NewContainerNotFoundError "b" (none : Option String)).Hint := by decide
  refine ⟨h, ?_⟩
  rintro ⟨hint, hall⟩
  exact h ((hall "a").trans (hall "b").symm)

/-- C12 (amended): each of the five constructors, for every argument and every
cause, gives an error whose `Unwrap` is the cause and whose message is
`<Operation> failed: <Reason>. <Hint>`, followed by
` (underlying error: <cause>)` exactly when there is a cause; the operation is
the kind's fixed name, the reason contains the argument, and the hint is not
empty: a fixed text for four kinds, and for container-not-found a fixed text
followed by the pod name. -/
theorem error_constructors_shape {ε : Type} (render : ε → String) (arg : String)
    (cause : Option ε) :
    specErrorShape render (NewContainerNotFoundError arg cause) "Container discovery" arg
      ("Ensure the pod is running and has at least one container. Check pod status with: kubectl describe pod " ++ arg)
      cause ∧
    specErrorShape render (NewProcessNotFoundError arg cause) "Process discovery" arg
      "The container may have just started or terminated. Verify with: kubectl get pod -o jsonpath='\x7b.status.containerStatuses[0].state\x7d'"
      cause ∧
    specErrorShape render (NewTcpdumpExecutionError arg cause) "Tcpdump execution" arg
      "Ensure the controller has privileged access and tcpdump is installed. Check security context in DaemonSet manifest."
      cause ∧
    specErrorShape render (NewFileCleanupError arg cause) "File cleanup" arg
      "Check file permissions and disk space. The file may have been manually deleted."
      cause ∧
    specErrorShape render (NewAnnotationParseError arg cause) "Annotation parsing" arg
      "The annotation value must be a positive integer representing max capture files. Example: kubectl annotate pod <name> tcpdump.antrea.io=\"5\""
      cause := by
  refine ⟨?_, ?_, ?_, ?_, ?_⟩
  · apply specErrorShape_NewCaptureError
    intro h
    have hlen := congrArg String.length h
    simp only [String.length_append] at hlen
    have hpos : 0 < ("Ensure the pod is running and has at least one container. Check pod status with: kubectl describe pod " : String).length := by
      decide
    have hzero : ("" : String).length = 0 := rfl
    omega
  · exact specErrorShape_NewCaptureError _ _ _ _ _ _ (by decide)
  · exact specErrorShape_NewCaptureError _ _ _ _ _ _ (by decide)
  · exact specErrorShape_NewCaptureError _ _ _ _ _ _ (by decide)
  · exact specErrorShape_NewCaptureError _ _ _ _ _ _ (by decide)

/-! ## Session Manager (C13 to C15) -/

/-- C13 (the code at the failing input): after start, stop, start on `ns/pod`
the table holds the record of the second task (context 1) and the first task
(context 0) is cancelled but has not yet returned.  When the first task then
reaches the end of `runTcpdump`, the table is empty: the exiting task has
removed the record of the second task, which is still running. -/
theorem stale_exit_deletes_newer_record :
    (run (World.new []) (staleExitTrace.take 3)).manager.sessions =
      [("ns/pod", { cancel := 1 })] ∧
    (run (World.new []) (staleExitTrace.take 3)).tasks.map (fun t => (t.ctx, t.key, t.exited)) =
      [(0, "ns/pod", false), (1, "ns/pod", false)] ∧
    (run (World.new []) (staleExitTrace.take 3)).cancelCalls = [0] ∧
    (runTcpdumpExit 0 (run (World.new []) (staleExitTrace.take 3))).manager.sessions = [] ∧
    (runTcpdumpExit 0 (run (World.new []) (staleExitTrace.take 3))).tasks.map
      (fun t => (t.ctx, t.key, t.exited)) = [(0, "ns/pod", true), (1, "ns/pod", false)] := by
  decide

/-- C14 (counterexample): the identities `(a, b-c)` and `(a-b, c)` are
different and made of Kubernetes characters, yet both write the live file
`capture-a-b-c.pcap`, the cleanup pattern of the first matches the live file of
the second, and `StopCapture` for the first removes it.  Likewise the pattern
of `(a, b)` matches the live file of `(a, b.pcap-x)`. -/
theorem capture_files_of_distinct_identities_collide :
    (("a", "b-c") : String × String) ≠ ("a-b", "c") ∧
    (∀ c ∈ "a".data ++ "b-c".data ++ "a-b".data ++ "c".data ++ "b".data ++ "b.pcap-x".data,
      isK8sChar c = true) ∧
    pcapFile (podNamed "a" "b-c") = pcapFile (podNamed "a-b" "c") ∧
    filepathMatch (captureStem "a" "b-c" ++ "*") (captureStem "a-b" "c") = some true ∧
    pcapFile (podNamed "a-b" "c") ∈ sharedFileWorld.files ∧
    (StopCapture allowAll "a" "b-c" sharedFileWorld).files = [] ∧
    (("a", "b") : String × String) ≠ ("a", "b.pcap-x") ∧
    filepathMatch (captureStem "a" "b" ++ "*") (captureStem "a" "b.pcap-x") = some true := by
  decide

/-- C14 (amended): for two identities made of Kubernetes characters, the cleanup
pattern of the first matches a capture file `capture-<ns2>-<name2>.pcap<suffix>`
of the second exactly when `capture-<ns1>-<name1>.pcap` starts that file name.
When the two identities differ, their names contain no `.` and their
namespaces are equal or contain no `-`, this never happens: the pattern
matches neither the live file nor a rotated file of the second, the two live
files differ, and `StopCapture` for the first leaves every capture file of the
second in place. -/
theorem cleanup_pattern_and_other_identity (canRemove : String → Bool)
    (ns1 name1 ns2 name2 suffix : String) (w : World)
    (hns1 : ∀ c ∈ ns1.data, isK8sChar c = true) (hname1 : ∀ c ∈ name1.data, isK8sChar c = true)
    (hns2 : ∀ c ∈ ns2.data, isK8sChar c = true) (hname2 : ∀ c ∈ name2.data, isK8sChar c = true)
    (hsuffix : '/' ∉ suffix.data) :
    filepathMatch (captureStem ns1 name1 ++ "*") (captureStem ns2 name2 ++ suffix) =
      some ((captureStem ns1 name1).data.isPrefixOf (captureStem ns2 name2 ++ suffix).data) ∧
    ((ns1 = ns2 ∨ ('-' ∉ ns1.data ∧ '-' ∉ ns2.data)) →
      '.' ∉ name1.data → '.' ∉ name2.data → (ns1, name1) ≠ (ns2, name2) →
      filepathMatch (captureStem ns1 name1 ++ "*") (captureStem ns2 name2 ++ suffix) =
        some false ∧
      pcapFile (podNamed ns1 name1) ≠ pcapFile (podNamed ns2 name2) ∧
      (CaptureDir ++ "/" ++ (captureStem ns2 name2 ++ suffix) ∈ w.files →
        CaptureDir ++ "/" ++ (captureStem ns2 name2 ++ suffix) ∈
          (StopCapture canRemove ns1 name1 w).files)) := by
  have p1 := fun c hc => isK8sChar_plain c (hns1 c hc)
  have p2 := fun c hc => isK8sChar_plain c (hname1 c hc)
  have p3 := fun c hc => isK8sChar_plain c (hns2 c hc)
  have p4 := fun c hc => isK8sChar_plain c (hname2 c hc)
  have hmatch := filepathMatch_captureStem ns1 name1 ns2 name2 suffix p1 p2 p3 p4 hsuffix
  refine ⟨hmatch, ?_⟩
  intro hnsp hdot1 hdot2 hne
  have hnot := captureStem_not_isPrefix ns1 name1 ns2 name2 suffix hnsp hdot1 hdot2 hne
  refine ⟨?_, ?_, ?_⟩
  · rw [hmatch]
    have : (captureStem ns1 name1).data.isPrefixOf (captureStem ns2 name2 ++ suffix).data
        = false := by
      rw [Bool.eq_false_iff]
      exact fun h => hnot (List.isPrefixOf_iff_prefix.mp h)
    rw [this]
  · rw [pcapFile_eq ns1 name1 p1 p2, pcapFile_eq ns2 name2 p3 p4]
    intro heq
    have hdata := congrArg String.data heq
    simp only [String.data_append] at hdata
    have hstem : (captureStem ns1 name1).data = (captureStem ns2 name2).data :=
      List.append_cancel_left hdata
    have hnot0 := captureStem_not_isPrefix ns1 name1 ns2 name2 "" hnsp hdot1 hdot2 hne
    rw [String.append_empty, ← hstem] at hnot0
    exact hnot0 (List.prefix_refl _)
  · intro hin
    cases hs : w.manager.sessions.lookup (ns1 ++ "/" ++ name1) with
    | none =>
      rw [StopCapture_of_no_session canRemove ns1 name1 w hs]
      exact hin
    | some sess =>
      rw [StopCapture_of_session canRemove ns1 name1 w sess hs]
      exact cleanupFiles_keeps canRemove ns1 name1 _ _ p1 p2 hnot hin

/-- C14 (witness): stopping `ns/pod` leaves the live file of `ns/other`, and the
pattern of `ns/pod` does not match it. -/
theorem cleanup_pattern_and_other_identity_witness :
    filepathMatch (captureStem "ns" "pod" ++ "*") (captureStem "ns" "other") = some false ∧
    "/var/log/antrea-captures/capture-ns-other.pcap" ∈
      (StopCapture allowAll "ns" "pod" sampleCaptureWorld).files :=
  have h := (cleanup_pattern_and_other_identity allowAll "ns" "pod" "ns" "other" ""
    sampleCaptureWorld (by decide) (by decide) (by decide) (by decide) (by decide)).2
    (Or.inl rfl) (by decide) (by decide) (by decide)
  ⟨h.1, h.2.2 (by decide)⟩

/-- C15 (the code at the failing input): the runtime identifier `containerd://`
splits into `containerd` and the empty text, passes the format check, and the
Process Resolver is asked for the empty container id: it answers with the
first process that has a readable `cgroup` file, here the host's process 1,
and the capture is started on it.  With `cri://abc://def` the resolver is asked
for `abc`, not for `abc://def`. -/
theorem empty_container_id_resolves_to_first_process :
    stringsSplit "containerd://" "://" = ["containerd", ""] ∧
    findPidByContainerID hostProc "" = .ok 1 ∧
    (StartCapture hostProc (podWithContainerID "containerd://") (World.new [])).1 = none ∧
    (StartCapture hostProc (podWithContainerID "containerd://") (World.new [])).2.tasks.map
      (fun t => t.pid) = [1] ∧
    (StartCapture hostProc (podWithContainerID "containerd://")
      (World.new [])).2.manager.sessions = [("ns/pod", { cancel := 0 })] ∧
    stringsSplit "cri://abc://def" "://" = ["cri", "abc", "def"] ∧
    (StartCapture hostProc (podWithContainerID "cri://abc://def") (World.new [])).2.tasks.map
      (fun t => t.pid) = [42] :=
  ⟨by decide, rfl, by decide, by decide, by decide, by decide, by decide⟩

end PacketCapture
